import Mathlib

/-
  Verification of the GoReleaser-Wizard configuration core.

  Shallow embedding conventions:
  * Go strings are embedded as `List Char` (`Str`); `str s` converts a Lean
    string literal to this representation.  Lengths are rune counts, which
    agree with Go byte lengths on the ASCII data every validator enforces.
  * Go string-based enum types (`Platform`, `Architecture`, `ProjectType`,
    `GitProvider`, `DockerRegistry`, `CGOStatus`, `DockerSupport`,
    `SigningLevel`, `ActionLevel`, `FeatureLevel`, `ConfigState`,
    `ActionTrigger`) stay strings, exactly as in the source, so that invalid
    values remain representable.
  * Functions returning Go `error` are embedded as `Bool` (`true` = nil
    error) or as explicit result pairs when the mutated value matters.
-/

namespace GW

abbrev Str := List Char

def str (s : String) : Str := s.data

/-- The newline character used by the emitters. -/
def nl : Char := '\n'

/-- Prefix test on character lists (Go `strings.HasPrefix`). -/
def strStarts : Str → Str → Bool
  | [], _ => true
  | _ :: _, [] => false
  | a :: as, b :: bs => a == b && strStarts as bs

/-- Substring test: `strContains s p` is true when `p` occurs inside `s`
(Go `strings.Contains(s, p)`). -/
def strContains : Str → Str → Bool
  | s, p =>
    strStarts p s ||
      match s with
      | [] => false
      | _ :: rest => strContains rest p

/-- ASCII alphanumeric test, mirroring `isAlphaNumeric` in
`internal/domain/project_type.go`. -/
def isAlphaNumeric (c : Char) : Bool :=
  ('a' ≤ c && c ≤ 'z') || ('A' ≤ c && c ≤ 'Z') || ('0' ≤ c && c ≤ '9')

/-- Lower-casing a string character by character (Go `strings.ToLower`,
restricted to the ASCII data handled by this program). -/
def lowerStr (s : Str) : Str := s.map Char.toLower

/-- Go `strings.Join(ls, "\n")`. -/
def joinNL : List Str → Str
  | [] => []
  | [l] => l
  | l :: ls => l ++ nl :: joinNL ls

/-- Splitting on one character (Go `strings.Split(s, "\n")` for `c = '\n'`). -/
def splitOnChar (c : Char) : Str → List Str
  | [] => [[]]
  | x :: xs =>
    match splitOnChar c xs with
    | [] => [[]]
    | h :: t => if x == c then [] :: h :: t else (x :: h) :: t

/-- Characters treated as white space by Go `strings.TrimSpace` on ASCII. -/
def isGoSpace (c : Char) : Bool :=
  c == ' ' || c == '\t' || c == '\n' || c == '\r' ||
    c == '\x0b' || c == '\x0c'

def trimLeft : Str → Str
  | [] => []
  | x :: xs => if isGoSpace x then trimLeft xs else x :: xs

/-- Go `strings.TrimSpace`. -/
def trimSpace (s : Str) : Str :=
  (trimLeft (trimLeft s).reverse).reverse

/- ===== Platform (internal/domain/platform.go) ===== -/

def platformLinux : Str := str "linux"
def platformDarwin : Str := str "darwin"
def platformWindows : Str := str "windows"
def platformFreeBSD : Str := str "freebsd"
def platformOpenBSD : Str := str "openbsd"
def platformNetBSD : Str := str "netbsd"

def archAMD64 : Str := str "amd64"
def archARM64 : Str := str "arm64"
def arch386 : Str := str "386"
def archARM : Str := str "arm"
def archPPC64 : Str := str "ppc64"
def archPPC64LE : Str := str "ppc64le"
def archS390X : Str := str "s390x"
def archMIPS : Str := str "mips"
def archMIPSLE : Str := str "mipsle"

/-- The `platformMetadata` table: supported architectures per platform. -/
def platformMetaArchitectures (p : Str) : Option (List Str) :=
  if p = platformLinux then some [archAMD64, archARM64, archARM, arch386]
  else if p = platformDarwin then some [archAMD64, archARM64]
  else if p = platformWindows then some [archAMD64, archARM64, arch386]
  else if p = platformFreeBSD then some [archAMD64, archARM64, arch386]
  else if p = platformOpenBSD then some [archAMD64, archARM64, arch386]
  else if p = platformNetBSD then some [archAMD64, archARM64, arch386]
  else none

/-- `Platform.IsValid`: membership in the metadata table. -/
def platformIsValid (p : Str) : Bool :=
  (platformMetaArchitectures p).isSome

/-- `Platform.Architectures`: table lookup with the hard-coded fallback
`[]Architecture{AMD64, ARM64}` for unknown platforms. -/
def platformArchitectures (p : Str) : List Str :=
  match platformMetaArchitectures p with
  | some as => as
  | none => [archAMD64, archARM64]

/-- `Platform.SupportsCGO`: every table entry stores `true`, and the
fallback for unknown platforms is also `true`. -/
def platformSupportsCGO (p : Str) : Bool :=
  match platformMetaArchitectures p with
  | some _ => true
  | none => true

/-- `ValidatePlatforms`. -/
def validatePlatforms (ps : List Str) : Bool :=
  !ps.isEmpty && ps.all platformIsValid

/-- `ValidatePlatformArchCompatibility`: the full cartesian product check. -/
def validatePlatformArchCompatibility (ps as : List Str) : Bool :=
  !ps.isEmpty && !as.isEmpty &&
    ps.all fun p => as.all fun a => (platformArchitectures p).contains a

/- ===== Architecture (src/unnamed/part_011) ===== -/

def architectureIsValid (a : Str) : Bool :=
  a = archAMD64 || a = archARM64 || a = arch386 || a = archARM ||
    a = archPPC64 || a = archPPC64LE || a = archS390X || a = archMIPS ||
    a = archMIPSLE

/-- `ValidateArchitectures`. -/
def validateArchitectures (as : List Str) : Bool :=
  !as.isEmpty && as.all architectureIsValid

/-- `GetRecommendedArchitectures`. -/
def getRecommendedArchitectures : List Str := [archAMD64, archARM64]

/- ===== ProjectType (internal/domain/project_type.go) ===== -/

def projectTypeCLI : Str := str "cli"
def projectTypeWeb : Str := str "web"
def projectTypeLibrary : Str := str "library"
def projectTypeAPI : Str := str "api"
def projectTypeDesktop : Str := str "desktop"

def projectTypeIsValid (pt : Str) : Bool :=
  pt = projectTypeCLI || pt = projectTypeWeb || pt = projectTypeLibrary ||
    pt = projectTypeAPI || pt = projectTypeDesktop

/-- `ProjectType.String()` display name. -/
def projectTypeDisplay (pt : Str) : Str :=
  if pt = projectTypeCLI then str "CLI Application"
  else if pt = projectTypeWeb then str "Web Service"
  else if pt = projectTypeLibrary then str "Library"
  else if pt = projectTypeAPI then str "API Service"
  else if pt = projectTypeDesktop then str "Desktop Application"
  else pt

/-- `ProjectType.DefaultCGOEnabled` (table lookup; `false` for unknown). -/
def projectTypeDefaultCGOEnabled (pt : Str) : Bool :=
  pt = projectTypeWeb || pt = projectTypeAPI || pt = projectTypeDesktop

/-- `ProjectType.RecommendedPlatforms` (table lookup with fallback). -/
def projectTypeRecommendedPlatforms (pt : Str) : List Str :=
  if pt = projectTypeCLI then [platformLinux, platformDarwin, platformWindows]
  else if pt = projectTypeWeb then [platformLinux, platformDarwin]
  else if pt = projectTypeLibrary then
    [platformLinux, platformDarwin, platformWindows]
  else if pt = projectTypeAPI then [platformLinux, platformDarwin]
  else if pt = projectTypeDesktop then
    [platformWindows, platformDarwin, platformLinux]
  else [platformLinux, platformDarwin, platformWindows]

/-- `ProjectType.DockerSupported` (table lookup; `false` for unknown). -/
def projectTypeDockerSupported (pt : Str) : Bool :=
  pt = projectTypeCLI || pt = projectTypeWeb || pt = projectTypeAPI

/- ===== GitProvider (internal/domain/git_provider.go) ===== -/

def gitProviderGitHub : Str := str "github"
def gitProviderGitLab : Str := str "gitlab"
def gitProviderBitbucket : Str := str "bitbucket"
def gitProviderGitea : Str := str "gitea"
def gitProviderSelfHosted : Str := str "self-hosted"

def gitProviderIsValid (gp : Str) : Bool :=
  gp = gitProviderGitHub || gp = gitProviderGitLab ||
    gp = gitProviderBitbucket || gp = gitProviderGitea ||
    gp = gitProviderSelfHosted

def dockerRegistryDockerHub : Str := str "docker.io"
def dockerRegistryGitHub : Str := str "ghcr.io"
def dockerRegistryGitLab : Str := str "registry.gitlab.com"
def dockerRegistryQuay : Str := str "quay.io"
def dockerRegistryCustom : Str := str "custom"

/-- `GitProvider.DefaultRegistry` (table lookup; Custom for unknown). -/
def gitProviderDefaultRegistry (gp : Str) : Str :=
  if gp = gitProviderGitHub then dockerRegistryGitHub
  else if gp = gitProviderGitLab then dockerRegistryGitLab
  else dockerRegistryCustom

/-- `GitProvider.ActionsSupported` (table lookup; `false` for unknown). -/
def gitProviderActionsSupported (gp : Str) : Bool :=
  gp = gitProviderGitHub || gp = gitProviderGitLab ||
    gp = gitProviderBitbucket

/-- `ValidateGitProvider`. -/
def validateGitProvider (gp : Str) : Bool := gitProviderIsValid gp

/-- `DockerRegistry.IsValid` (internal/domain/docker_registry_old.go). -/
def dockerRegistryIsValid (dr : Str) : Bool :=
  dr = dockerRegistryDockerHub || dr = dockerRegistryGitHub ||
    dr = dockerRegistryGitLab || dr = dockerRegistryQuay ||
    dr = dockerRegistryCustom

/-- `ValidateDockerRegistry` (internal/domain/docker_registry_old.go). -/
def validateDockerRegistry (dr : Str) : Bool := dockerRegistryIsValid dr

/- ===== Level enums (src/unnamed/part_010) ===== -/

def cgoStatusDisabled : Str := str "disabled"
def cgoStatusEnabled : Str := str "enabled"
def cgoStatusRequired : Str := str "required"

def cgoStatusIsValid (cs : Str) : Bool :=
  cs = cgoStatusDisabled || cs = cgoStatusEnabled || cs = cgoStatusRequired

def cgoStatusIsEnabled (cs : Str) : Bool :=
  cs = cgoStatusEnabled || cs = cgoStatusRequired

def cgoStatusIsRequired (cs : Str) : Bool := cs = cgoStatusRequired

def dockerSupportNone : Str := str "none"
def dockerSupportBuild : Str := str "build"
def dockerSupportPublish : Str := str "publish"
def dockerSupportBoth : Str := str "both"

def dockerSupportIsValid (ds : Str) : Bool :=
  ds = dockerSupportNone || ds = dockerSupportBuild ||
    ds = dockerSupportPublish || ds = dockerSupportBoth

/-- `DockerSupport.IsEnabled`: anything but `none`. -/
def dockerSupportIsEnabled (ds : Str) : Bool := ds ≠ dockerSupportNone

def signingLevelNone : Str := str "none"
def signingLevelBasic : Str := str "basic"
def signingLevelAdvanced : Str := str "advanced"
def signingLevelEnterprise : Str := str "enterprise"

def signingLevelIsValid (sl : Str) : Bool :=
  sl = signingLevelNone || sl = signingLevelBasic ||
    sl = signingLevelAdvanced || sl = signingLevelEnterprise

def actionLevelNone : Str := str "none"
def actionLevelBasic : Str := str "basic"
def actionLevelAdvanced : Str := str "advanced"

def actionLevelIsValid (al : Str) : Bool :=
  al = actionLevelNone || al = actionLevelBasic || al = actionLevelAdvanced

def featureLevelBasic : Str := str "basic"
def featureLevelProfessional : Str := str "professional"
def featureLevelEnterprise : Str := str "enterprise"

def featureLevelIsValid (fl : Str) : Bool :=
  fl = featureLevelBasic || fl = featureLevelProfessional ||
    fl = featureLevelEnterprise

/-- `GetRecommendedSigningLevel` (src/unnamed/part_010). -/
def getRecommendedSigningLevel (pt : Str) : Str :=
  if pt = projectTypeCLI then signingLevelBasic
  else if pt = projectTypeWeb || pt = projectTypeAPI then signingLevelAdvanced
  else if pt = projectTypeDesktop then signingLevelEnterprise
  else if pt = projectTypeLibrary then signingLevelNone
  else signingLevelBasic

/-- `GetRecommendedFeatureLevel` (src/unnamed/part_010). -/
def getRecommendedFeatureLevel (pt : Str) : Str :=
  if pt = projectTypeAPI || pt = projectTypeWeb then featureLevelProfessional
  else if pt = projectTypeDesktop then featureLevelEnterprise
  else featureLevelBasic

/- ===== ConfigState (src/unnamed/part_008) ===== -/

def configStateDraft : Str := str "draft"
def configStateValid : Str := str "valid"
def configStateInvalid : Str := str "invalid"
def configStateProcessing : Str := str "processing"
def configStateGenerated : Str := str "generated"

def configStateIsValid (cs : Str) : Bool :=
  cs = configStateDraft || cs = configStateValid || cs = configStateInvalid ||
    cs = configStateProcessing || cs = configStateGenerated

/-- `ValidateConfigState`. -/
def validateConfigState (cs : Str) : Bool := configStateIsValid cs

/- ===== ActionTrigger (src/unnamed/part_007) ===== -/

def actionTriggerVersionTags : Str := str "version-tags"
def actionTriggerAllTags : Str := str "all-tags"
def actionTriggerManual : Str := str "manual"
def actionTriggerMain : Str := str "main"
def actionTriggerRelease : Str := str "release"

def actionTriggerIsValid (at' : Str) : Bool :=
  at' = actionTriggerVersionTags || at' = actionTriggerAllTags ||
    at' = actionTriggerManual || at' = actionTriggerMain ||
    at' = actionTriggerRelease

/-- `ActionTrigger.GitHubPattern` (metadata table; empty for unknown). -/
def actionTriggerGitHubPattern (at' : Str) : Str :=
  if at' = actionTriggerVersionTags then
    str "push:\n  tags:\n    - \x27v*\x27"
  else if at' = actionTriggerAllTags then
    str "push:\n  tags:\n    - \x27*\x27"
  else if at' = actionTriggerManual then str "workflow_dispatch:"
  else if at' = actionTriggerMain then str "push:\n  branches:\n    - main"
  else if at' = actionTriggerRelease then
    str "release:\n    types: [published]"
  else []

/-- `ValidateActionTriggers`: non-empty and all valid. -/
def validateActionTriggers (ts : List Str) : Bool :=
  !ts.isEmpty && ts.all actionTriggerIsValid

/-- `GetRecommendedTriggers`: filters `GetAllActionTriggers` by the
`recommendedFor` table column. -/
def getRecommendedTriggers (pt : Str) : List Str :=
  [actionTriggerVersionTags, actionTriggerAllTags, actionTriggerManual,
    actionTriggerMain, actionTriggerRelease].filter fun t =>
      if t = actionTriggerVersionTags then
        pt = projectTypeCLI || pt = projectTypeWeb || pt = projectTypeAPI
      else if t = actionTriggerAllTags then pt = projectTypeLibrary
      else if t = actionTriggerManual then
        pt = projectTypeCLI || pt = projectTypeWeb || pt = projectTypeAPI ||
          pt = projectTypeDesktop
      else if t = actionTriggerMain then
        pt = projectTypeWeb || pt = projectTypeAPI
      else
        pt = projectTypeCLI || pt = projectTypeWeb || pt = projectTypeAPI ||
          pt = projectTypeDesktop

/-- Go `strings.Join` with an arbitrary separator. -/
def strJoin (ls : List Str) (sep : Str) : Str :=
  match ls with
  | [] => []
  | [l] => l
  | l :: rest => l ++ sep ++ strJoin rest sep

/-- `GenerateGitHubActionsTriggersYAML`. -/
def generateGitHubActionsTriggersYAML (ts : List Str) : Str :=
  match ts with
  | [] => []
  | [t] => actionTriggerGitHubPattern t
  | _ =>
    strJoin (ts.map actionTriggerGitHubPattern) (str "\n\n  ")

/- ===== Domain field validators (internal/domain/project_type.go) ===== -/

/-- `domain.ValidateProjectName`: length 1..63, alphanumeric first character,
characters restricted to `[A-Za-z0-9_-]`. -/
def domainValidateProjectName (name : Str) : Bool :=
  1 ≤ name.length && name.length ≤ 63 &&
    (match name with
      | [] => false
      | c :: _ => isAlphaNumeric c) &&
    name.all fun c => isAlphaNumeric c || c == '_' || c == '-'

/-- `domain.ValidateBinaryName`: like project names, plus the Windows
reserved device name check. -/
def domainValidateBinaryName (name : Str) : Bool :=
  1 ≤ name.length && name.length ≤ 63 &&
    (match name with
      | [] => false
      | c :: _ => isAlphaNumeric c) &&
    (name.all fun c => isAlphaNumeric c || c == '_' || c == '-') &&
    !([str "con", str "prn", str "aux", str "nul", str "com1", str "com2",
        str "com3", str "com4", str "com5", str "com6", str "com7",
        str "com8", str "com9", str "lpt1", str "lpt2", str "lpt3",
        str "lpt4", str "lpt5", str "lpt6", str "lpt7", str "lpt8",
        str "lpt9"].contains (lowerStr name))

/-- `domain.ValidateMainPath`: length 1..255, charset, no `..`. -/
def domainValidateMainPath (path : Str) : Bool :=
  1 ≤ path.length && path.length ≤ 255 &&
    (path.all fun c =>
      isAlphaNumeric c || c == '/' || c == '_' || c == '.' || c == '-') &&
    !(strContains path (str ".."))

/-- `domain.ValidateProjectDescription`: at most 255 characters, no control
characters. -/
def domainValidateProjectDescription (desc : Str) : Bool :=
  desc.length ≤ 255 &&
    desc.all fun c => !(c.toNat < 32 || c.toNat == 127)

/- ===== BuildTag (internal/domain/build_tag_old.go) ===== -/

structure BuildTag where
  name : Str
  description : Str
deriving DecidableEq

/-- `isValidBuildTagName`: non-empty, characters in `[A-Za-z0-9_-]`. -/
def isValidBuildTagName (name : Str) : Bool :=
  !name.isEmpty &&
    name.all fun c =>
      c == '_' || c == '-' || ('a' ≤ c && c ≤ 'z') ||
        ('A' ≤ c && c ≤ 'Z') || ('0' ≤ c && c ≤ '9')

/-- `BuildTag.IsValid`. -/
def buildTagIsValid (bt : BuildTag) : Bool := isValidBuildTagName bt.name

/-- The duplicate scan of `ValidateBuildTags`: walk the list with a `seen`
set and fail at the first repeated name. -/
def buildTagNamesHaveDup : List Str → List Str → Bool
  | _, [] => false
  | seen, n :: rest =>
    seen.any (fun m => m == n) || buildTagNamesHaveDup (n :: seen) rest

/-- `ValidateBuildTags`: at most 50 tags, each valid, no duplicate names. -/
def validateBuildTags (tags : List BuildTag) : Bool :=
  tags.length ≤ 50 && tags.all buildTagIsValid &&
    !buildTagNamesHaveDup [] (tags.map BuildTag.name)

/- ===== SafeProjectConfig (internal/domain/safe_project_config.go) ===== -/

@[ext]
structure SafeProjectConfig where
  projectName : Str
  projectDescription : Str
  projectType : Str
  binaryName : Str
  mainPath : Str
  platforms : List Str
  architectures : List Str
  cgoStatus : Str
  buildTags : List BuildTag
  ldflags : Bool
  gitProvider : Str
  dockerSupport : Str
  dockerRegistry : Str
  dockerImage : Str
  signingLevel : Str
  homebrew : Bool
  snap : Bool
  sbom : Bool
  actionLevel : Str
  actionsOn : List Str
  featureLevel : Str
  state : Str
deriving DecidableEq

/-- `GetDockerEnabled` legacy accessor: `DockerSupport.ToBool()`. -/
def getDockerEnabled (c : SafeProjectConfig) : Bool :=
  dockerSupportIsEnabled c.dockerSupport

/-- `GetCGOEnabled` legacy accessor: `CGOStatus.ToBool()`. -/
def getCGOEnabled (c : SafeProjectConfig) : Bool :=
  cgoStatusIsEnabled c.cgoStatus

/-- `SafeProjectConfig.ValidateInvariants`: the conjunction of all field,
type, and cross-field checks, in source order (the boolean conjunction has
the same acceptance set as the sequence of early returns). -/
def validateInvariants (c : SafeProjectConfig) : Bool :=
  domainValidateProjectName c.projectName &&
  domainValidateBinaryName c.binaryName &&
  domainValidateMainPath c.mainPath &&
  domainValidateProjectDescription c.projectDescription &&
  projectTypeIsValid c.projectType &&
  validatePlatforms c.platforms &&
  validateArchitectures c.architectures &&
  validateGitProvider c.gitProvider &&
  validateDockerRegistry c.dockerRegistry &&
  validateActionTriggers c.actionsOn &&
  cgoStatusIsValid c.cgoStatus &&
  dockerSupportIsValid c.dockerSupport &&
  signingLevelIsValid c.signingLevel &&
  actionLevelIsValid c.actionLevel &&
  featureLevelIsValid c.featureLevel &&
  validateConfigState c.state &&
  !(dockerSupportIsEnabled c.dockerSupport &&
      !projectTypeDockerSupported c.projectType) &&
  !(cgoStatusIsEnabled c.cgoStatus && cgoStatusIsRequired c.cgoStatus &&
      !c.platforms.any platformSupportsCGO) &&
  validatePlatformArchCompatibility c.platforms c.architectures

/- ===== State machine (safe_project_config.go, lines 317-345) ===== -/

/-- The `allowedTransitions` table of `ConfigState.AllowsTransitionTo`;
a state missing from the map (any invalid string) has no transitions. -/
def allowedTransitions (cs : Str) : List Str :=
  if cs = configStateDraft then [configStateValid, configStateInvalid]
  else if cs = configStateValid then
    [configStateInvalid, configStateProcessing]
  else if cs = configStateInvalid then
    [configStateValid, configStateProcessing]
  else if cs = configStateProcessing then
    [configStateValid, configStateInvalid, configStateGenerated]
  else []

/-- `ConfigState.AllowsTransitionTo`: loop over the table row comparing
each allowed target with the requested one. -/
def allowsTransitionTo (cs next : Str) : Bool :=
  (allowedTransitions cs).any fun allowed => allowed == next

/-- `SafeProjectConfig.TransitionToState`: on a disallowed transition it
returns an error (`false`) and leaves the receiver unchanged; otherwise it
sets the state and reports success. -/
def transitionToState (c : SafeProjectConfig) (next : Str) :
    Bool × SafeProjectConfig :=
  if allowsTransitionTo c.state next then (true, { c with state := next })
  else (false, c)

end GW

/- ===== Theorems for C10 ===== -/

open GW in
/-- C10: for every string `p` that is not one of the six declared `Platform`
variants, `Platform(p).IsValid()` is false, yet `Platform(p).Architectures()`
returns the non-empty default `[amd64, arm64]` and `Platform(p).SupportsCGO()`
returns true — the capability accessors do not fail closed. -/
theorem C10_unknown_platform_open_defaults (p : Str)
    (h : platformIsValid p = false) :
    platformArchitectures p = [archAMD64, archARM64] ∧
      platformArchitectures p ≠ [] ∧
      platformSupportsCGO p = true := by
  unfold platformArchitectures platformSupportsCGO
  unfold platformIsValid at h
  cases hm : platformMetaArchitectures p with
  | none => simp
  | some as => rw [hm] at h; simp at h

open GW in
/-- Witness for C10 at the concrete unknown platform string "solaris". -/
theorem C10_unknown_platform_open_defaults_witness :
    platformIsValid (str "solaris") = false ∧
      platformArchitectures (str "solaris") = [archAMD64, archARM64] ∧
      platformSupportsCGO (str "solaris") = true := by
  refine ⟨by decide, ?_, ?_⟩
  · exact (C10_unknown_platform_open_defaults (str "solaris") (by decide)).1
  · exact (C10_unknown_platform_open_defaults (str "solaris") (by decide)).2.2

namespace GW

/-- A configuration value in the terminal state `Generated`, used as the
concrete input of the C3 witness. -/
def generatedConfig : SafeProjectConfig :=
  { projectName := str "app", projectDescription := [],
    projectType := projectTypeCLI, binaryName := str "app",
    mainPath := str "cmd", platforms := [platformLinux],
    architectures := [archAMD64], cgoStatus := cgoStatusDisabled,
    buildTags := [], ldflags := true, gitProvider := gitProviderGitHub,
    dockerSupport := dockerSupportNone,
    dockerRegistry := dockerRegistryGitHub, dockerImage := [],
    signingLevel := signingLevelNone, homebrew := false, snap := false,
    sbom := false, actionLevel := actionLevelBasic,
    actionsOn := [actionTriggerVersionTags], featureLevel := featureLevelBasic,
    state := configStateGenerated }

/-- The transition relation claimed by the spec, written independently of
the code table. -/
def specEdge (cs next : Str) : Prop :=
  (cs = configStateDraft ∧
      (next = configStateValid ∨ next = configStateInvalid)) ∨
    (cs = configStateValid ∧
      (next = configStateInvalid ∨ next = configStateProcessing)) ∨
    (cs = configStateInvalid ∧
      (next = configStateValid ∨ next = configStateProcessing)) ∨
    (cs = configStateProcessing ∧
      (next = configStateValid ∨ next = configStateInvalid ∨
        next = configStateGenerated))

lemma allowsTransitionTo_iff (cs next : Str) :
    allowsTransitionTo cs next = true ↔ specEdge cs next := by
  unfold allowsTransitionTo allowedTransitions specEdge
  by_cases h1 : cs = configStateDraft
  · subst h1
    rw [if_pos rfl]
    constructor
    · intro h
      have h' : configStateValid = next ∨ configStateInvalid = next := by
        simpa [List.any_cons, List.any_nil, beq_iff_eq] using h
      exact Or.inl ⟨rfl, h'.imp Eq.symm Eq.symm⟩
    · rintro (⟨_, hn | hn⟩ | ⟨hc, _⟩ | ⟨hc, _⟩ | ⟨hc, _⟩)
      · simp [List.any_cons, List.any_nil, beq_iff_eq, hn]
      · simp [List.any_cons, List.any_nil, beq_iff_eq, hn]
      · exact absurd hc (by decide)
      · exact absurd hc (by decide)
      · exact absurd hc (by decide)
  · by_cases h2 : cs = configStateValid
    · subst h2
      rw [if_neg h1, if_pos rfl]
      constructor
      · intro h
        have h' : configStateInvalid = next ∨ configStateProcessing = next := by
          simpa [List.any_cons, List.any_nil, beq_iff_eq] using h
        exact Or.inr (Or.inl ⟨rfl, h'.imp Eq.symm Eq.symm⟩)
      · rintro (⟨hc, _⟩ | ⟨_, hn | hn⟩ | ⟨hc, _⟩ | ⟨hc, _⟩)
        · exact absurd hc (by decide)
        · simp [List.any_cons, List.any_nil, beq_iff_eq, hn]
        · simp [List.any_cons, List.any_nil, beq_iff_eq, hn]
        · exact absurd hc (by decide)
        · exact absurd hc (by decide)
    · by_cases h3 : cs = configStateInvalid
      · subst h3
        rw [if_neg h1, if_neg h2, if_pos rfl]
        constructor
        · intro h
          have h' : configStateValid = next ∨ configStateProcessing = next := by
            simpa [List.any_cons, List.any_nil, beq_iff_eq] using h
          exact Or.inr (Or.inr (Or.inl ⟨rfl, h'.imp Eq.symm Eq.symm⟩))
        · rintro (⟨hc, _⟩ | ⟨hc, _⟩ | ⟨_, hn | hn⟩ | ⟨hc, _⟩)
          · exact absurd hc (by decide)
          · exact absurd hc (by decide)
          · simp [List.any_cons, List.any_nil, beq_iff_eq, hn]
          · simp [List.any_cons, List.any_nil, beq_iff_eq, hn]
          · exact absurd hc (by decide)
      · by_cases h4 : cs = configStateProcessing
        · subst h4
          rw [if_neg h1, if_neg h2, if_neg h3, if_pos rfl]
          constructor
          · intro h
            have h' : configStateValid = next ∨ configStateInvalid = next ∨
                configStateGenerated = next := by
              simpa [List.any_cons, List.any_nil, beq_iff_eq, or_assoc]
                using h
            refine Or.inr (Or.inr (Or.inr ⟨rfl, ?_⟩))
            exact h'.imp Eq.symm (fun h => h.imp Eq.symm Eq.symm)
          · rintro (⟨hc, _⟩ | ⟨hc, _⟩ | ⟨hc, _⟩ | ⟨_, hn | hn | hn⟩)
            · exact absurd hc (by decide)
            · exact absurd hc (by decide)
            · exact absurd hc (by decide)
            · simp [List.any_cons, List.any_nil, beq_iff_eq, hn]
            · simp [List.any_cons, List.any_nil, beq_iff_eq, hn]
            · simp [List.any_cons, List.any_nil, beq_iff_eq, hn]
        · rw [if_neg h1, if_neg h2, if_neg h3, if_neg h4]
          refine iff_of_false (by simp) ?_
          rintro (⟨hc, _⟩ | ⟨hc, _⟩ | ⟨hc, _⟩ | ⟨hc, _⟩)
          · exact h1 hc
          · exact h2 hc
          · exact h3 hc
          · exact h4 hc

lemma transitionToState_fst (c : SafeProjectConfig) (next : Str) :
    (transitionToState c next).1 = allowsTransitionTo c.state next := by
  unfold transitionToState
  by_cases h : allowsTransitionTo c.state next <;> simp [h]

end GW

open GW in
/-- C3: the transition operation succeeds exactly on the edges
Draft→{Valid,Invalid}, Valid→{Invalid,Processing}, Invalid→{Valid,Processing},
Processing→{Valid,Invalid,Generated}; Generated (and any state value outside
the table) has no outgoing edges, and every disallowed transition returns an
error and leaves the configuration, including its state field, unchanged. -/
theorem C3_state_machine_edges (c : SafeProjectConfig) (next : Str) :
    ((transitionToState c next).1 = true ↔ specEdge c.state next) ∧
      ((transitionToState c next).1 = false →
        (transitionToState c next).2 = c) := by
  refine ⟨?_, ?_⟩
  · rw [transitionToState_fst]; exact allowsTransitionTo_iff c.state next
  · intro h
    unfold transitionToState at h ⊢
    by_cases ha : allowsTransitionTo c.state next = true
    · simp [ha] at h
    · simp [ha]

open GW in
/-- Witness for C3: the terminal state Generated refuses the concrete
transition to Valid and the configuration comes back unchanged. -/
theorem C3_state_machine_edges_witness :
    (transitionToState generatedConfig configStateValid).1 = false ∧
      (transitionToState generatedConfig configStateValid).2 =
        generatedConfig := by
  have h := C3_state_machine_edges generatedConfig configStateValid
  have hspec : ¬ specEdge generatedConfig.state configStateValid := by
    unfold specEdge generatedConfig; decide
  have hne : (transitionToState generatedConfig configStateValid).1 ≠ true :=
    fun heq => hspec (h.1.mp heq)
  have hf : (transitionToState generatedConfig configStateValid).1 = false :=
    Bool.eq_false_iff.mpr hne
  exact ⟨hf, h.2 hf⟩

namespace GW

/-- Eleven build flags with pairwise distinct valid names: one more than the
limit the spec asserts. -/
def elevenBuildTags : List BuildTag :=
  [⟨str "a", []⟩, ⟨str "b", []⟩, ⟨str "c", []⟩, ⟨str "d", []⟩,
    ⟨str "e", []⟩, ⟨str "f", []⟩, ⟨str "g", []⟩, ⟨str "h", []⟩,
    ⟨str "i", []⟩, ⟨str "j", []⟩, ⟨str "k", []⟩]

lemma buildTagNamesHaveDup_eq_false (seen ns : List Str) :
    buildTagNamesHaveDup seen ns = false ↔
      ns.Nodup ∧ ∀ n ∈ ns, n ∉ seen := by
  induction ns generalizing seen with
  | nil => simp [buildTagNamesHaveDup]
  | cons n rest ih =>
    constructor
    · intro h
      have hpair : seen.any (fun m => m == n) = false ∧
          buildTagNamesHaveDup (n :: seen) rest = false := by
        simpa [buildTagNamesHaveDup, Bool.or_eq_false_iff] using h
      obtain ⟨hs, hr⟩ := hpair
      obtain ⟨hdup, hnot⟩ := (ih (n :: seen)).mp hr
      have hn : n ∉ seen := by
        intro hmem
        have : seen.any (fun m => m == n) = true :=
          List.any_eq_true.mpr ⟨n, hmem, by simp⟩
        rw [this] at hs
        cases hs
      refine ⟨List.nodup_cons.mpr ⟨fun hmem => ?_, hdup⟩, ?_⟩
      · exact hnot n hmem (List.mem_cons_self n seen)
      · intro m hm
        rcases List.mem_cons.mp hm with rfl | hm2
        · exact hn
        · exact fun hmem => hnot m hm2 (List.mem_cons_of_mem _ hmem)
    · rintro ⟨hdup, hnot⟩
      obtain ⟨hnr, hdup2⟩ := List.nodup_cons.mp hdup
      have hseen : seen.any (fun m => m == n) = false := by
        cases hc : seen.any (fun m => m == n)
        · rfl
        · obtain ⟨m, hm, he⟩ := List.any_eq_true.mp hc
          rw [beq_iff_eq] at he
          subst he
          exact absurd hm (hnot m (List.mem_cons_self m rest))
      have hrest : buildTagNamesHaveDup (n :: seen) rest = false := by
        refine (ih (n :: seen)).mpr ⟨hdup2, ?_⟩
        intro m hm hmem
        rcases List.mem_cons.mp hmem with rfl | hmem2
        · exact hnr hm
        · exact hnot m (List.mem_cons_of_mem _ hm) hmem2
      simp [buildTagNamesHaveDup, hseen, hrest]

end GW

open GW in
/-- C7 amended: build-flag validation rejects sets of more than 50 flags
(not 10) and sets with a repeated name; a set of at most 50 flags with
pairwise-distinct valid names is accepted. -/
theorem C7_build_flag_limit_amended (tags : List BuildTag) :
    validateBuildTags tags = true ↔
      (tags.length ≤ 50 ∧ (∀ t ∈ tags, buildTagIsValid t = true) ∧
        (tags.map BuildTag.name).Nodup) := by
  unfold validateBuildTags
  simp only [Bool.and_eq_true, decide_eq_true_eq, List.all_eq_true,
    Bool.not_eq_true', buildTagNamesHaveDup_eq_false, List.not_mem_nil,
    not_false_iff, implies_true, and_true, and_assoc]

open GW in
/-- C7 counterexample: a set of eleven distinct valid build flags is
accepted, although the claim says any set of more than 10 flags is
rejected. -/
theorem C7_build_flag_limit_counterexample :
    elevenBuildTags.length = 11 ∧
      validateBuildTags elevenBuildTags = true := by
  constructor
  · decide
  · decide

open GW in
/-- Witness for C7: the amended characterisation applied to the concrete
eleven-flag set. -/
theorem C7_build_flag_limit_amended_witness :
    elevenBuildTags.length ≤ 50 ∧
      (∀ t ∈ elevenBuildTags, buildTagIsValid t = true) ∧
      (elevenBuildTags.map BuildTag.name).Nodup :=
  (C7_build_flag_limit_amended elevenBuildTags).mp (by decide)

namespace GW

/-- Suffix test (Go `strings.HasSuffix`). -/
def strEnds (suffix s : Str) : Bool :=
  strStarts suffix.reverse s.reverse

lemma strStarts_iff (p s : Str) : strStarts p s = true ↔ p <+: s := by
  induction p generalizing s with
  | nil => simp [strStarts]
  | cons a as ih =>
    cases s with
    | nil =>
      simp only [strStarts, List.prefix_nil]
      simp
    | cons b bs =>
      simp [strStarts, ih, List.cons_prefix_cons, beq_iff_eq, and_comm]

lemma strContains_iff (s p : Str) : strContains s p = true ↔ p <:+: s := by
  induction s with
  | nil =>
    rw [strContains]
    simp only [Bool.or_eq_true, strStarts_iff]
    constructor
    · rintro (h | h)
      · exact h.isInfix
      · cases h
    · intro h
      exact Or.inl (List.eq_nil_of_infix_nil h ▸ List.nil_prefix)
  | cons x xs ih =>
    rw [strContains]
    simp only [Bool.or_eq_true, strStarts_iff, ih, List.infix_cons_iff]

/- ===== validation.ValidateProjectName (form_validator.go) ===== -/

/-- The `reservedNames` table of `internal/validation`. -/
def reservedNames : List Str :=
  [str "con", str "prn", str "aux", str "nul",
    str "com1", str "com2", str "com3", str "com4",
    str "com5", str "com6", str "com7", str "com8",
    str "com9", str "lpt1", str "lpt2", str "lpt3",
    str "lpt4", str "lpt5", str "lpt6", str "lpt7",
    str "lpt8", str "lpt9",
    str "go", str "test", str "vendor", str "internal",
    str "main", str "init", str "close", str "copy",
    str "etc", str "usr", str "var", str "bin", str "sbin",
    str "lib", str "lib64", str "dev", str "proc", str "sys",
    str "root", str "home", str "tmp", str "opt", str "srv",
    str "mnt", str "media", str "run"]

/-- The character class `[a-zA-Z0-9\-._]` of `projectNamePattern`. -/
def projectNameClass (c : Char) : Bool :=
  isAlphaNumeric c || c == '-' || c == '.' || c == '_'

/-- The anchored regular expression `^[a-zA-Z0-9][a-zA-Z0-9\-._]*[a-zA-Z0-9]$`
(`projectNamePattern` in form_validator.go): it requires at least two
characters, an alphanumeric first and last character, and class characters
in between. -/
def projectNamePatternMatch (name : Str) : Bool :=
  match name with
  | [] => false
  | [_] => false
  | c :: rest =>
    isAlphaNumeric c && rest.dropLast.all projectNameClass &&
      (match rest.getLast? with
        | some l => isAlphaNumeric l
        | none => false)

/-- `validation.ValidateProjectName`: the sequence of early-return checks of
form_validator.go expressed as one conjunction (same acceptance set). -/
def validationValidateProjectName (name : Str) : Bool :=
  !name.isEmpty &&
    (1 ≤ name.length && name.length ≤ 63) &&
    !(strContains name (str "--") || strContains name (str "__") ||
        strContains name (str "..")) &&
    projectNamePatternMatch name &&
    !(reservedNames.any fun r => r == lowerStr name) &&
    !(strStarts (str ".") name || strStarts (str "-") name) &&
    !(strEnds (str ".") name || strEnds (str "-") name)

/-- The acceptance set claimed by the spec, written independently of the
validator: bounded length, alphanumeric ends, class characters throughout,
no consecutive special pairs, not a reserved name (case-insensitively).
The regular expression in the claim forces a length of at least two. -/
def specProjectNameOK (name : Str) : Prop :=
  2 ≤ name.length ∧ name.length ≤ 63 ∧
    (∀ c ∈ name, projectNameClass c = true) ∧
    (∀ c, name.head? = some c → isAlphaNumeric c = true) ∧
    (∀ c, name.getLast? = some c → isAlphaNumeric c = true) ∧
    ¬ (str "--" <:+: name) ∧ ¬ (str "__" <:+: name) ∧
    ¬ (str ".." <:+: name) ∧ lowerStr name ∉ reservedNames

lemma isAlphaNumeric_class {c : Char} (h : isAlphaNumeric c = true) :
    projectNameClass c = true := by
  simp [projectNameClass, h]

lemma isAlphaNumeric_not_dot_dash {c : Char} (h : isAlphaNumeric c = true) :
    c ≠ '.' ∧ c ≠ '-' := by
  constructor <;> rintro rfl <;> revert h <;> decide

end GW

namespace GW

lemma projectNamePatternMatch_iff (name : Str) :
    projectNamePatternMatch name = true ↔
      (2 ≤ name.length ∧ (∀ c ∈ name, projectNameClass c = true) ∧
        (∀ c, name.head? = some c → isAlphaNumeric c = true) ∧
        (∀ c, name.getLast? = some c → isAlphaNumeric c = true)) := by
  match name with
  | [] => simp [projectNamePatternMatch]
  | [x] =>
    simp only [projectNamePatternMatch, List.length_singleton]
    constructor
    · intro h; cases h
    · rintro ⟨h, -⟩; omega
  | c :: d :: rest =>
    have hL : (d :: rest : Str) ≠ [] := List.cons_ne_nil d rest
    have hlast? : (d :: rest : Str).getLast? =
        some ((d :: rest).getLast hL) := List.getLast?_eq_getLast _ hL
    have hsplit : (d :: rest : Str).dropLast ++ [(d :: rest).getLast hL] =
        d :: rest := List.dropLast_append_getLast hL
    constructor
    · intro h
      simp only [projectNamePatternMatch, hlast?, Bool.and_eq_true,
        List.all_eq_true] at h
      obtain ⟨⟨hc, hmid⟩, hlast⟩ := h
      refine ⟨by simp [Nat.succ_le_succ, Nat.le_add_left], ?_, ?_, ?_⟩
      · intro x hx
        rcases List.mem_cons.mp hx with rfl | hx2
        · exact isAlphaNumeric_class hc
        · rw [← hsplit] at hx2
          rcases List.mem_append.mp hx2 with hx3 | hx3
          · exact hmid x hx3
          · rcases List.mem_singleton.mp hx3 with rfl
            exact isAlphaNumeric_class hlast
      · intro x hx
        simp only [List.head?_cons, Option.some.injEq] at hx
        exact hx ▸ hc
      · intro x hx
        rw [List.getLast?_cons_cons, hlast?] at hx
        rcases Option.some.injEq _ _ ▸ hx with rfl
        exact hlast
    · rintro ⟨-, hall, hhead, hlast⟩
      simp only [projectNamePatternMatch, hlast?, Bool.and_eq_true,
        List.all_eq_true]
      refine ⟨⟨hhead c rfl, ?_⟩, ?_⟩
      · intro x hx
        exact hall x (List.mem_cons_of_mem c (List.dropLast_subset _ hx))
      · exact hlast _ (by rw [List.getLast?_cons_cons, hlast?])

lemma head_not_special {c : Char} {rest : Str}
    (h : isAlphaNumeric c = true) :
    strStarts (str ".") (c :: rest) = false ∧
      strStarts (str "-") (c :: rest) = false := by
  obtain ⟨h1, h2⟩ := isAlphaNumeric_not_dot_dash h
  constructor
  · simp [strStarts, str, beq_iff_eq]
    intro hc
    exact absurd hc.symm h1
  · simp [strStarts, str, beq_iff_eq]
    intro hc
    exact absurd hc.symm h2

end GW

open GW in
/-- C6 amended: project-name validation (`internal/validation`) accepts
exactly the strings of length 2 to 63 (the anchored regular expression needs
two characters, so single-character names are rejected, contrary to the
claim) whose characters are alphanumerics, `-`, `.` or `_`, whose first and
last characters are alphanumeric, which contain no consecutive pair `--`,
`__` or `..`, and whose lower-cased form is not a reserved name.  In
particular every 63-character conforming name is accepted and every
64-character name is rejected. -/
theorem C6_project_name_amended (name : GW.Str) :
    validationValidateProjectName name = true ↔ specProjectNameOK name := by
  unfold validationValidateProjectName specProjectNameOK
  simp only [Bool.and_eq_true, Bool.not_eq_true', Bool.or_eq_false_iff,
    decide_eq_true_eq, projectNamePatternMatch_iff, and_assoc]
  constructor
  · rintro ⟨-, -, h63, hcc1, hcc2, hcc3, h2, hall, hhead, hlast, hres,
      -, -, -, -⟩
    refine ⟨h2, h63, hall, hhead, hlast, ?_, ?_, ?_, ?_⟩
    · intro h
      have hv := (strContains_iff name (str "--")).mpr h
      rw [hcc1] at hv
      simp at hv
    · intro h
      have hv := (strContains_iff name (str "__")).mpr h
      rw [hcc2] at hv
      simp at hv
    · intro h
      have hv := (strContains_iff name (str "..")).mpr h
      rw [hcc3] at hv
      simp at hv
    · intro hmem
      have hv : (reservedNames.any fun r => r == lowerStr name) = true :=
        List.any_eq_true.mpr ⟨lowerStr name, hmem, by simp⟩
      rw [hres] at hv
      simp at hv
  · rintro ⟨h2, h63, hall, hhead, hlast, hc1, hc2, hc3, hres⟩
    obtain ⟨c, rest, rfl⟩ : ∃ c rest, name = c :: rest := by
      cases name with
      | nil => simp at h2
      | cons c rest => exact ⟨c, rest, rfl⟩
    have hcal : isAlphaNumeric c = true := hhead c rfl
    refine ⟨by simp, by omega, h63, ?_, ?_, ?_, h2, hall, hhead, hlast,
      ?_, (head_not_special hcal).1, (head_not_special hcal).2, ?_⟩
    · exact Bool.eq_false_iff.mpr
        fun hcon => hc1 ((strContains_iff _ _).mp hcon)
    · exact Bool.eq_false_iff.mpr
        fun hcon => hc2 ((strContains_iff _ _).mp hcon)
    · exact Bool.eq_false_iff.mpr
        fun hcon => hc3 ((strContains_iff _ _).mp hcon)
    · refine Bool.eq_false_iff.mpr fun hany => ?_
      obtain ⟨r, hr, he⟩ := List.any_eq_true.mp hany
      rw [beq_iff_eq] at he
      exact hres (he ▸ hr)
    · obtain ⟨l, hl⟩ : ∃ l, (c :: rest : Str).getLast? = some l := by
        cases hg : (c :: rest : Str).getLast? with
        | none => simp at hg
        | some l => exact ⟨l, rfl⟩
      have hlal : isAlphaNumeric l = true := hlast l hl
      have hrev : (c :: rest : Str).reverse.head? = some l := by
        rw [List.head?_reverse]; exact hl
      obtain ⟨ys, hys⟩ : ∃ ys, (c :: rest : Str).reverse = l :: ys := by
        cases hr : (c :: rest : Str).reverse with
        | nil => rw [hr] at hrev; cases hrev
        | cons y ys =>
          rw [hr] at hrev
          simp only [List.head?_cons, Option.some.injEq] at hrev
          exact ⟨ys, by rw [hrev]⟩
      unfold strEnds
      rw [hys]
      exact ⟨(head_not_special hlal).1, (head_not_special hlal).2⟩

open GW in
/-- C6 counterexample: the single-character alphanumeric name "a", which the
claim says is accepted, is rejected by project-name validation (the anchored
pattern requires at least two characters). -/
theorem C6_project_name_counterexample :
    isAlphaNumeric 'a' = true ∧
      validationValidateProjectName (str "a") = false := by
  constructor
  · decide
  · decide

open GW in
/-- Witness for C6: the amended characterisation applied to a concrete
conforming 63-character name, plus the rejection of a 64-character name. -/
theorem C6_project_name_amended_witness :
    specProjectNameOK
        (str "aaaaaaaaaaaaaaaaaaaaaaaaaaaaaaaaaaaaaaaaaaaaaaaaaaaaaaaaaaaaaaa") ∧
      validationValidateProjectName
        (str "aaaaaaaaaaaaaaaaaaaaaaaaaaaaaaaaaaaaaaaaaaaaaaaaaaaaaaaaaaaaaaaa") =
        false := by
  constructor
  · exact (C6_project_name_amended _).mp (by decide)
  · decide

namespace GW

/-- Element-wise copy of a slice, as done by `Clone` with `make` + `copy`. -/
def copySlice {α : Type} (l : List α) : List α :=
  l.foldr (fun x acc => x :: acc) []

/-- `SafeProjectConfig.Clone`: a shallow value copy plus element-wise copies
of the four slice fields. -/
def clone (c : SafeProjectConfig) : SafeProjectConfig :=
  { c with
    platforms := copySlice c.platforms,
    architectures := copySlice c.architectures,
    buildTags := copySlice c.buildTags,
    actionsOn := copySlice c.actionsOn }

/-- `SafeProjectConfig.Equals` (the nil-receiver cases of the Go code do not
arise in the value embedding): it compares only thirteen scalar fields and
ignores the platforms, architectures, build-tag and trigger collections as
well as the CGO, docker-support, signing, action and feature level fields. -/
def equalsCfg (a b : SafeProjectConfig) : Bool :=
  a.projectName == b.projectName &&
    a.projectDescription == b.projectDescription &&
    a.projectType == b.projectType &&
    a.binaryName == b.binaryName &&
    a.mainPath == b.mainPath &&
    a.ldflags == b.ldflags &&
    a.gitProvider == b.gitProvider &&
    a.dockerRegistry == b.dockerRegistry &&
    a.dockerImage == b.dockerImage &&
    a.homebrew == b.homebrew &&
    a.snap == b.snap &&
    a.sbom == b.sbom &&
    a.state == b.state

lemma copySlice_eq {α : Type} (l : List α) : copySlice l = l := by
  induction l with
  | nil => rfl
  | cons x xs ih =>
    show x :: copySlice xs = x :: xs
    rw [ih]

/-- A valid configuration targeting one platform. -/
def onePlatformConfig : SafeProjectConfig :=
  { projectName := str "tool", projectDescription := [],
    projectType := projectTypeCLI, binaryName := str "tool",
    mainPath := str "cmd", platforms := [platformLinux],
    architectures := [archAMD64], cgoStatus := cgoStatusDisabled,
    buildTags := [], ldflags := true, gitProvider := gitProviderGitHub,
    dockerSupport := dockerSupportNone,
    dockerRegistry := dockerRegistryGitHub, dockerImage := [],
    signingLevel := signingLevelNone, homebrew := false, snap := false,
    sbom := false, actionLevel := actionLevelBasic,
    actionsOn := [actionTriggerVersionTags], featureLevel := featureLevelBasic,
    state := configStateDraft }

/-- The same configuration with a different platform set. -/
def twoPlatformConfig : SafeProjectConfig :=
  { onePlatformConfig with platforms := [platformLinux, platformDarwin] }

end GW

open GW in
/-- C9 amended: `Clone` produces a deep, structurally equal copy, but
`Equals` is structural only over the thirteen scalar fields it lists —
differences in the platforms, architectures, build-flag and trigger
collections and in the CGO, container-support, signing, action and feature
level fields are not detected. -/
theorem C9_clone_equals_amended :
    (∀ c : SafeProjectConfig, clone c = c) ∧
      (∀ a b : SafeProjectConfig, equalsCfg a b = true ↔
        (a.projectName = b.projectName ∧
          a.projectDescription = b.projectDescription ∧
          a.projectType = b.projectType ∧ a.binaryName = b.binaryName ∧
          a.mainPath = b.mainPath ∧ a.ldflags = b.ldflags ∧
          a.gitProvider = b.gitProvider ∧
          a.dockerRegistry = b.dockerRegistry ∧
          a.dockerImage = b.dockerImage ∧ a.homebrew = b.homebrew ∧
          a.snap = b.snap ∧ a.sbom = b.sbom ∧ a.state = b.state)) := by
  constructor
  · intro c
    simp only [clone, copySlice_eq]
  · intro a b
    simp [equalsCfg, Bool.and_eq_true, beq_iff_eq, and_assoc]

open GW in
/-- C9 counterexample: two configurations that differ in their platform
collections are reported equal by `Equals`, refuting the claim that a
difference in any field is detected. -/
theorem C9_clone_equals_counterexample :
    equalsCfg onePlatformConfig twoPlatformConfig = true ∧
      onePlatformConfig ≠ twoPlatformConfig := by
  constructor
  · decide
  · decide

open GW in
/-- Witness for C9: the amended theorem applied to concrete inputs. -/
theorem C9_clone_equals_amended_witness :
    clone onePlatformConfig = onePlatformConfig ∧
      equalsCfg onePlatformConfig onePlatformConfig = true := by
  constructor
  · exact C9_clone_equals_amended.1 onePlatformConfig
  · exact (C9_clone_equals_amended.2 onePlatformConfig
      onePlatformConfig).mpr ⟨rfl, rfl, rfl, rfl, rfl, rfl, rfl, rfl, rfl,
        rfl, rfl, rfl, rfl⟩

namespace GW

/-- Modelled from the spec: `GetRecommendedGitProvider` is called by
`SafeProjectConfig.ApplyDefaults` but its definition is not among the
available source files; section 4.1 of the specification fixes the default
hosting provider as ProviderA, i.e. GitHub. -/
def getRecommendedGitProvider : Str := gitProviderGitHub

/-
  `SafeProjectConfig.ApplyDefaults` is a sequence of conditional field
  updates; later conditions read the GitProvider and DockerSupport values
  already updated earlier in the same call.  Each `ad*` helper below is the
  final value of one field, with the sequential dependencies made explicit
  through calls to the earlier helpers.
-/

def adCGOStatus (c : SafeProjectConfig) : Str :=
  if c.cgoStatus = cgoStatusDisabled ∧
      projectTypeDefaultCGOEnabled c.projectType = true then cgoStatusEnabled
  else c.cgoStatus

def adPlatforms (c : SafeProjectConfig) : List Str :=
  if c.platforms.isEmpty = true then
    projectTypeRecommendedPlatforms c.projectType
  else c.platforms

def adArchitectures (c : SafeProjectConfig) : List Str :=
  if c.architectures.isEmpty = true then getRecommendedArchitectures
  else c.architectures

def adGitProvider (c : SafeProjectConfig) : Str :=
  if c.gitProvider = [] then getRecommendedGitProvider else c.gitProvider

def adDockerSupport (c : SafeProjectConfig) : Str :=
  if c.dockerSupport = dockerSupportNone ∧
      projectTypeDockerSupported c.projectType = true then dockerSupportBuild
  else c.dockerSupport

def adDockerRegistry (c : SafeProjectConfig) : Str :=
  if c.dockerRegistry = [] ∧
      dockerSupportIsEnabled (adDockerSupport c) = true then
    gitProviderDefaultRegistry (adGitProvider c)
  else c.dockerRegistry

def adActionLevel (c : SafeProjectConfig) : Str :=
  if c.actionLevel = actionLevelNone ∧
      gitProviderActionsSupported (adGitProvider c) = true then
    actionLevelBasic
  else c.actionLevel

def adActionsOn (c : SafeProjectConfig) : List Str :=
  if c.actionLevel = actionLevelNone ∧
      gitProviderActionsSupported (adGitProvider c) = true ∧
      c.actionsOn.isEmpty = true then
    getRecommendedTriggers c.projectType
  else c.actionsOn

def adFeatureLevel (c : SafeProjectConfig) : Str :=
  if c.featureLevel = featureLevelBasic then
    getRecommendedFeatureLevel c.projectType
  else c.featureLevel

def adSigningLevel (c : SafeProjectConfig) : Str :=
  if c.signingLevel = signingLevelNone then
    getRecommendedSigningLevel c.projectType
  else c.signingLevel

def adBinaryName (c : SafeProjectConfig) : Str :=
  if c.binaryName = [] ∧ c.projectName ≠ [] then c.projectName
  else c.binaryName

def adDockerImage (c : SafeProjectConfig) : Str :=
  if c.dockerImage = [] ∧ c.projectName ≠ [] ∧
      dockerSupportIsEnabled (adDockerSupport c) = true then
    lowerStr c.projectName
  else c.dockerImage

/-- `SafeProjectConfig.ApplyDefaults`. -/
def applyDefaults (c : SafeProjectConfig) : SafeProjectConfig :=
  { c with
    cgoStatus := adCGOStatus c,
    platforms := adPlatforms c,
    architectures := adArchitectures c,
    gitProvider := adGitProvider c,
    dockerSupport := adDockerSupport c,
    dockerRegistry := adDockerRegistry c,
    actionLevel := adActionLevel c,
    actionsOn := adActionsOn c,
    featureLevel := adFeatureLevel c,
    signingLevel := adSigningLevel c,
    binaryName := adBinaryName c,
    dockerImage := adDockerImage c }

lemma recommendedPlatforms_not_empty (pt : Str) :
    (projectTypeRecommendedPlatforms pt).isEmpty = false := by
  unfold projectTypeRecommendedPlatforms
  split_ifs <;> rfl

lemma defaultRegistry_not_empty (gp : Str) :
    gitProviderDefaultRegistry gp ≠ [] := by
  unfold gitProviderDefaultRegistry
  split_ifs <;> decide

lemma lowerStr_eq_nil_iff (s : Str) : lowerStr s = [] ↔ s = [] := by
  unfold lowerStr
  simp


lemma ad_projectType (c : SafeProjectConfig) :
    (applyDefaults c).projectType = c.projectType := rfl

lemma ad_projectName (c : SafeProjectConfig) :
    (applyDefaults c).projectName = c.projectName := rfl

lemma ad_cgoStatus (c : SafeProjectConfig) :
    (applyDefaults c).cgoStatus = adCGOStatus c := rfl

lemma ad_platforms (c : SafeProjectConfig) :
    (applyDefaults c).platforms = adPlatforms c := rfl

lemma ad_architectures (c : SafeProjectConfig) :
    (applyDefaults c).architectures = adArchitectures c := rfl

lemma ad_gitProvider (c : SafeProjectConfig) :
    (applyDefaults c).gitProvider = adGitProvider c := rfl

lemma ad_dockerSupport (c : SafeProjectConfig) :
    (applyDefaults c).dockerSupport = adDockerSupport c := rfl

lemma ad_dockerRegistry (c : SafeProjectConfig) :
    (applyDefaults c).dockerRegistry = adDockerRegistry c := rfl

lemma ad_actionLevel (c : SafeProjectConfig) :
    (applyDefaults c).actionLevel = adActionLevel c := rfl

lemma ad_actionsOn (c : SafeProjectConfig) :
    (applyDefaults c).actionsOn = adActionsOn c := rfl

lemma ad_featureLevel (c : SafeProjectConfig) :
    (applyDefaults c).featureLevel = adFeatureLevel c := rfl

lemma ad_signingLevel (c : SafeProjectConfig) :
    (applyDefaults c).signingLevel = adSigningLevel c := rfl

lemma ad_binaryName (c : SafeProjectConfig) :
    (applyDefaults c).binaryName = adBinaryName c := rfl

lemma ad_dockerImage (c : SafeProjectConfig) :
    (applyDefaults c).dockerImage = adDockerImage c := rfl

lemma adCGOStatus_stable (c : SafeProjectConfig) :
    adCGOStatus (applyDefaults c) = adCGOStatus c := by
  show (if (applyDefaults c).cgoStatus = cgoStatusDisabled ∧
      projectTypeDefaultCGOEnabled (applyDefaults c).projectType = true then
      cgoStatusEnabled else (applyDefaults c).cgoStatus) = adCGOStatus c
  rw [ad_cgoStatus, ad_projectType, if_neg]
  unfold adCGOStatus
  by_cases h : c.cgoStatus = cgoStatusDisabled ∧
      projectTypeDefaultCGOEnabled c.projectType = true
  · rw [if_pos h]
    rintro ⟨hcon, -⟩
    exact absurd hcon (by decide)
  · rw [if_neg h]
    exact h

lemma adPlatforms_stable (c : SafeProjectConfig) :
    adPlatforms (applyDefaults c) = adPlatforms c := by
  show (if (applyDefaults c).platforms.isEmpty = true then
      projectTypeRecommendedPlatforms (applyDefaults c).projectType
      else (applyDefaults c).platforms) = adPlatforms c
  rw [ad_platforms, ad_projectType]
  unfold adPlatforms
  by_cases h : c.platforms.isEmpty = true
  · rw [if_pos h, ite_self]
  · rw [if_neg h, if_neg h]

lemma adArchitectures_stable (c : SafeProjectConfig) :
    adArchitectures (applyDefaults c) = adArchitectures c := by
  show (if (applyDefaults c).architectures.isEmpty = true then
      getRecommendedArchitectures else (applyDefaults c).architectures) =
      adArchitectures c
  rw [ad_architectures]
  unfold adArchitectures
  by_cases h : c.architectures.isEmpty = true
  · rw [if_pos h, ite_self]
  · rw [if_neg h, if_neg h]

lemma adGitProvider_stable (c : SafeProjectConfig) :
    adGitProvider (applyDefaults c) = adGitProvider c := by
  show (if (applyDefaults c).gitProvider = [] then getRecommendedGitProvider
      else (applyDefaults c).gitProvider) = adGitProvider c
  rw [ad_gitProvider]
  unfold adGitProvider
  by_cases h : c.gitProvider = []
  · rw [if_pos h, ite_self]
  · rw [if_neg h, if_neg h]

lemma adDockerSupport_stable (c : SafeProjectConfig) :
    adDockerSupport (applyDefaults c) = adDockerSupport c := by
  show (if (applyDefaults c).dockerSupport = dockerSupportNone ∧
      projectTypeDockerSupported (applyDefaults c).projectType = true then
      dockerSupportBuild else (applyDefaults c).dockerSupport) =
      adDockerSupport c
  rw [ad_dockerSupport, ad_projectType, if_neg]
  unfold adDockerSupport
  by_cases h : c.dockerSupport = dockerSupportNone ∧
      projectTypeDockerSupported c.projectType = true
  · rw [if_pos h]
    rintro ⟨hcon, -⟩
    exact absurd hcon (by decide)
  · rw [if_neg h]
    exact h

lemma adDockerRegistry_stable (c : SafeProjectConfig) :
    adDockerRegistry (applyDefaults c) = adDockerRegistry c := by
  show (if (applyDefaults c).dockerRegistry = [] ∧
      dockerSupportIsEnabled (adDockerSupport (applyDefaults c)) = true then
      gitProviderDefaultRegistry (adGitProvider (applyDefaults c))
      else (applyDefaults c).dockerRegistry) = adDockerRegistry c
  rw [ad_dockerRegistry, adDockerSupport_stable, adGitProvider_stable, if_neg]
  unfold adDockerRegistry
  by_cases h : c.dockerRegistry = [] ∧
      dockerSupportIsEnabled (adDockerSupport c) = true
  · rw [if_pos h]
    rintro ⟨hcon, -⟩
    exact defaultRegistry_not_empty _ hcon
  · rw [if_neg h]
    exact h

lemma adActionLevel_stable (c : SafeProjectConfig) :
    adActionLevel (applyDefaults c) = adActionLevel c := by
  show (if (applyDefaults c).actionLevel = actionLevelNone ∧
      gitProviderActionsSupported (adGitProvider (applyDefaults c)) = true then
      actionLevelBasic else (applyDefaults c).actionLevel) = adActionLevel c
  rw [ad_actionLevel, adGitProvider_stable, if_neg]
  unfold adActionLevel
  by_cases h : c.actionLevel = actionLevelNone ∧
      gitProviderActionsSupported (adGitProvider c) = true
  · rw [if_pos h]
    rintro ⟨hcon, -⟩
    exact absurd hcon (by decide)
  · rw [if_neg h]
    exact h

lemma adActionsOn_stable (c : SafeProjectConfig) :
    adActionsOn (applyDefaults c) = adActionsOn c := by
  show (if (applyDefaults c).actionLevel = actionLevelNone ∧
      gitProviderActionsSupported (adGitProvider (applyDefaults c)) = true ∧
      (applyDefaults c).actionsOn.isEmpty = true then
      getRecommendedTriggers (applyDefaults c).projectType
      else (applyDefaults c).actionsOn) = adActionsOn c
  rw [ad_actionsOn, ad_actionLevel, adGitProvider_stable, ad_projectType,
    if_neg]
  rintro ⟨h1, h2, -⟩
  unfold adActionLevel at h1
  by_cases hQ : c.actionLevel = actionLevelNone ∧
      gitProviderActionsSupported (adGitProvider c) = true
  · rw [if_pos hQ] at h1
    exact absurd h1 (by decide)
  · rw [if_neg hQ] at h1
    exact hQ ⟨h1, h2⟩

lemma adFeatureLevel_stable (c : SafeProjectConfig) :
    adFeatureLevel (applyDefaults c) = adFeatureLevel c := by
  show (if (applyDefaults c).featureLevel = featureLevelBasic then
      getRecommendedFeatureLevel (applyDefaults c).projectType
      else (applyDefaults c).featureLevel) = adFeatureLevel c
  rw [ad_featureLevel, ad_projectType]
  by_cases h2 : adFeatureLevel c = featureLevelBasic
  · rw [if_pos h2]
    unfold adFeatureLevel at h2 ⊢
    by_cases h1 : c.featureLevel = featureLevelBasic
    · rw [if_pos h1]
    · rw [if_neg h1] at h2 ⊢
      exact absurd h2 h1
  · rw [if_neg h2]

lemma adSigningLevel_stable (c : SafeProjectConfig) :
    adSigningLevel (applyDefaults c) = adSigningLevel c := by
  show (if (applyDefaults c).signingLevel = signingLevelNone then
      getRecommendedSigningLevel (applyDefaults c).projectType
      else (applyDefaults c).signingLevel) = adSigningLevel c
  rw [ad_signingLevel, ad_projectType]
  by_cases h2 : adSigningLevel c = signingLevelNone
  · rw [if_pos h2]
    unfold adSigningLevel at h2 ⊢
    by_cases h1 : c.signingLevel = signingLevelNone
    · rw [if_pos h1]
    · rw [if_neg h1] at h2 ⊢
      exact absurd h2 h1
  · rw [if_neg h2]

lemma adBinaryName_stable (c : SafeProjectConfig) :
    adBinaryName (applyDefaults c) = adBinaryName c := by
  show (if (applyDefaults c).binaryName = [] ∧
      (applyDefaults c).projectName ≠ [] then (applyDefaults c).projectName
      else (applyDefaults c).binaryName) = adBinaryName c
  rw [ad_binaryName, ad_projectName, if_neg]
  unfold adBinaryName
  by_cases h : c.binaryName = [] ∧ c.projectName ≠ []
  · rw [if_pos h]
    rintro ⟨hcon, hne⟩
    exact hne hcon
  · rw [if_neg h]
    exact h

lemma adDockerImage_stable (c : SafeProjectConfig) :
    adDockerImage (applyDefaults c) = adDockerImage c := by
  show (if (applyDefaults c).dockerImage = [] ∧
      (applyDefaults c).projectName ≠ [] ∧
      dockerSupportIsEnabled (adDockerSupport (applyDefaults c)) = true then
      lowerStr (applyDefaults c).projectName
      else (applyDefaults c).dockerImage) = adDockerImage c
  rw [ad_dockerImage, ad_projectName, adDockerSupport_stable, if_neg]
  unfold adDockerImage
  by_cases h : c.dockerImage = [] ∧ c.projectName ≠ [] ∧
      dockerSupportIsEnabled (adDockerSupport c) = true
  · rw [if_pos h]
    rintro ⟨hcon, hne, -⟩
    exact hne ((lowerStr_eq_nil_iff c.projectName).mp hcon)
  · rw [if_neg h]
    exact h

end GW

open GW in
/-- C8: `ApplyDefaults` is idempotent — applying it twice yields a
configuration structurally equal, field for field including all collection
fields, to applying it once. -/
theorem C8_applyDefaults_idempotent (c : SafeProjectConfig) :
    applyDefaults (applyDefaults c) = applyDefaults c := by
  refine SafeProjectConfig.ext rfl rfl rfl ?_ rfl ?_ ?_ ?_ rfl rfl ?_ ?_ ?_
    ?_ ?_ rfl rfl rfl ?_ ?_ ?_ rfl
  · exact (ad_binaryName (applyDefaults c)).trans
      ((adBinaryName_stable c).trans (ad_binaryName c).symm)
  · exact (ad_platforms (applyDefaults c)).trans
      ((adPlatforms_stable c).trans (ad_platforms c).symm)
  · exact (ad_architectures (applyDefaults c)).trans
      ((adArchitectures_stable c).trans (ad_architectures c).symm)
  · exact (ad_cgoStatus (applyDefaults c)).trans
      ((adCGOStatus_stable c).trans (ad_cgoStatus c).symm)
  · exact (ad_gitProvider (applyDefaults c)).trans
      ((adGitProvider_stable c).trans (ad_gitProvider c).symm)
  · exact (ad_dockerSupport (applyDefaults c)).trans
      ((adDockerSupport_stable c).trans (ad_dockerSupport c).symm)
  · exact (ad_dockerRegistry (applyDefaults c)).trans
      ((adDockerRegistry_stable c).trans (ad_dockerRegistry c).symm)
  · exact (ad_dockerImage (applyDefaults c)).trans
      ((adDockerImage_stable c).trans (ad_dockerImage c).symm)
  · exact (ad_signingLevel (applyDefaults c)).trans
      ((adSigningLevel_stable c).trans (ad_signingLevel c).symm)
  · exact (ad_actionLevel (applyDefaults c)).trans
      ((adActionLevel_stable c).trans (ad_actionLevel c).symm)
  · exact (ad_actionsOn (applyDefaults c)).trans
      ((adActionsOn_stable c).trans (ad_actionsOn c).symm)
  · exact (ad_featureLevel (applyDefaults c)).trans
      ((adFeatureLevel_stable c).trans (ad_featureLevel c).symm)

namespace GW

/- ===== Manifest emitter (cmd/goreleaser-wizard/init.go, lines 634-682) ===== -/

/-- `formatPlatforms`: one `      - <platform>` line per selected platform,
joined with newlines, in the order of the configuration slice. -/
def formatPlatforms (ps : List Str) : Str :=
  joinNL (ps.map fun p => str "      - " ++ p)

/-- `formatArchitectures`. -/
def formatArchitectures (as : List Str) : Str :=
  joinNL (as.map fun a => str "      - " ++ a)

/-- Go `%t` of a boolean. -/
def goBool (b : Bool) : Str := if b then str "true" else str "false"

/-- `generateGoReleaserConfig`: the Sprintf template of init.go.  The `%s`
verbs receive, in order, the project name, the `ProjectType` display name,
the binary name, the CGO flag (the legacy boolean accessor of `CGOStatus`),
the platform lines and the architecture lines.  The template places
`    goarch:` directly after the platform lines without a newline, so the
last `goos` line and the `goarch:` key share one line of output. -/
def generateGoReleaserConfig (c : SafeProjectConfig) : Str :=
  str "# GoReleaser Configuration\n# Generated by GoReleaser Wizard\n\nproject_name: " ++
    c.projectName ++
    str "\nproject_type: " ++ projectTypeDisplay c.projectType ++
    str "\nbinary: " ++ c.binaryName ++
    str "\n\nbuilds:\n  - env:\n      - CGO_ENABLED=" ++
    goBool (getCGOEnabled c) ++
    str "\n    goos:\n" ++ formatPlatforms c.platforms ++
    str "    goarch:\n" ++ formatArchitectures c.architectures ++ str "\n"

/-- Append a suffix to the last line of a block (the effect of the template
gluing `    goarch:` onto the platform lines). -/
def glueLast : List Str → Str → List Str
  | [], suf => [suf]
  | [l], suf => [l ++ suf]
  | l :: ls, suf => l :: glueLast ls suf

/-- The line list a newline-split of `joinNL ls` reproduces: `[""]` when the
block is empty. -/
def blockLines (ls : List Str) : List Str :=
  match ls with
  | [] => [[]]
  | _ => ls

/-- The lines of the emitted manifest. -/
def manifestLines (c : SafeProjectConfig) : List Str :=
  [str "# GoReleaser Configuration", str "# Generated by GoReleaser Wizard",
    [], str "project_name: " ++ c.projectName,
    str "project_type: " ++ projectTypeDisplay c.projectType,
    str "binary: " ++ c.binaryName, [], str "builds:", str "  - env:",
    str "      - CGO_ENABLED=" ++ goBool (getCGOEnabled c),
    str "    goos:"] ++
  glueLast (c.platforms.map fun p => str "      - " ++ p)
    (str "    goarch:") ++
  blockLines (c.architectures.map fun a => str "      - " ++ a) ++ [[]]

/-- The declaration order of the `Platform` enum. -/
def platformDeclOrder : List Str :=
  [platformLinux, platformDarwin, platformWindows, platformFreeBSD,
    platformOpenBSD, platformNetBSD]

/-- The declaration order of the `Architecture` enum. -/
def archDeclOrder : List Str :=
  [archAMD64, archARM64, arch386, archARM, archPPC64, archPPC64LE,
    archS390X, archMIPS, archMIPSLE]

/-- The goos section the claim describes: selected platforms in enum
declaration order, duplicates collapsed. -/
def claimedGoosSection (c : SafeProjectConfig) : Str :=
  formatPlatforms (platformDeclOrder.filter fun p => c.platforms.contains p)

/-- A valid configuration whose platform slice is out of declaration order
and contains a duplicate. -/
def dupPlatformsConfig : SafeProjectConfig :=
  { projectName := str "my-cli", projectDescription := [],
    projectType := projectTypeCLI, binaryName := str "my-cli",
    mainPath := str "cmd/my-cli",
    platforms := [platformDarwin, platformLinux, platformLinux],
    architectures := [archAMD64, archAMD64], cgoStatus := cgoStatusDisabled,
    buildTags := [], ldflags := true, gitProvider := gitProviderGitHub,
    dockerSupport := dockerSupportNone,
    dockerRegistry := dockerRegistryGitHub, dockerImage := [],
    signingLevel := signingLevelNone, homebrew := false, snap := false,
    sbom := false, actionLevel := actionLevelBasic,
    actionsOn := [actionTriggerVersionTags], featureLevel := featureLevelBasic,
    state := configStateDraft }

end GW

namespace GW

lemma joinNL_append {as bs : List Str} (ha : as ≠ []) (hb : bs ≠ []) :
    joinNL (as ++ bs) = joinNL as ++ nl :: joinNL bs := by
  induction as with
  | nil => exact absurd rfl ha
  | cons l ls ih =>
    cases ls with
    | nil =>
      cases bs with
      | nil => exact absurd rfl hb
      | cons b bs2 => simp [joinNL]
    | cons l2 ls2 =>
      have h2 := ih (by simp)
      rw [List.cons_append] at h2
      show joinNL (l :: (l2 :: (ls2 ++ bs))) =
        joinNL (l :: l2 :: ls2) ++ nl :: joinNL bs
      rw [show joinNL (l :: (l2 :: (ls2 ++ bs))) =
        l ++ nl :: joinNL (l2 :: (ls2 ++ bs)) from rfl, h2,
        show joinNL (l :: l2 :: ls2) = l ++ nl :: joinNL (l2 :: ls2) from
          rfl]
      simp [List.append_assoc]

lemma joinNL_glueLast (ls : List Str) (suf : Str) :
    joinNL (glueLast ls suf) = joinNL ls ++ suf := by
  induction ls with
  | nil => simp [glueLast, joinNL]
  | cons l ls ih =>
    cases ls with
    | nil => simp [glueLast, joinNL]
    | cons l2 ls2 =>
      have hg : glueLast (l2 :: ls2) suf ≠ [] := by
        cases ls2 <;> simp [glueLast]
      show joinNL (l :: glueLast (l2 :: ls2) suf) =
        joinNL (l :: l2 :: ls2) ++ suf
      cases hgl : glueLast (l2 :: ls2) suf with
      | nil => exact absurd hgl hg
      | cons g gs =>
        rw [show joinNL (l :: g :: gs) = l ++ nl :: joinNL (g :: gs) from
          rfl, ← hgl, ih]
        simp [joinNL, List.append_assoc]

lemma glueLast_ne_nil (ls : List Str) (suf : Str) : glueLast ls suf ≠ [] := by
  cases ls with
  | nil => simp [glueLast]
  | cons l ls2 => cases ls2 <;> simp [glueLast]

lemma blockLines_ne_nil (ls : List Str) : blockLines ls ≠ [] := by
  cases ls <;> simp [blockLines]

lemma joinNL_blockLines_append (ls : List Str) :
    joinNL (blockLines ls ++ [[]]) = joinNL ls ++ [nl] := by
  cases ls with
  | nil => simp [blockLines, joinNL, nl]
  | cons l ls2 =>
    rw [show blockLines (l :: ls2) = l :: ls2 from rfl,
      joinNL_append (by simp) (by simp)]
    simp [joinNL]

lemma generateGoReleaserConfig_eq_joinNL (c : SafeProjectConfig) :
    generateGoReleaserConfig c = joinNL (manifestLines c) := by
  unfold manifestLines
  rw [List.append_assoc, List.append_assoc]
  rw [joinNL_append (by simp)
    (List.append_ne_nil_of_left_ne_nil (glueLast_ne_nil _ _) _)]
  rw [joinNL_append (glueLast_ne_nil _ _)
    (List.append_ne_nil_of_left_ne_nil (blockLines_ne_nil _) _)]
  rw [joinNL_glueLast, joinNL_blockLines_append]
  rw [show joinNL [str "# GoReleaser Configuration",
      str "# Generated by GoReleaser Wizard", ([] : Str),
      str "project_name: " ++ c.projectName,
      str "project_type: " ++ projectTypeDisplay c.projectType,
      str "binary: " ++ c.binaryName, ([] : Str), str "builds:",
      str "  - env:", str "      - CGO_ENABLED=" ++ goBool (getCGOEnabled c),
      str "    goos:"] =
    str "# GoReleaser Configuration" ++ nl ::
      (str "# Generated by GoReleaser Wizard" ++ nl :: (([] : Str) ++ nl ::
      ((str "project_name: " ++ c.projectName) ++ nl ::
      ((str "project_type: " ++ projectTypeDisplay c.projectType) ++ nl ::
      ((str "binary: " ++ c.binaryName) ++ nl :: (([] : Str) ++ nl ::
      (str "builds:" ++ nl :: (str "  - env:" ++ nl ::
      ((str "      - CGO_ENABLED=" ++ goBool (getCGOEnabled c)) ++ nl ::
      str "    goos:"))))))))) from rfl]
  unfold generateGoReleaserConfig formatPlatforms formatArchitectures
  simp only [List.append_assoc, List.cons_append, List.nil_append]
  rfl

end GW

namespace GW

lemma splitOnChar_ne_nil (c : Char) (s : Str) : splitOnChar c s ≠ [] := by
  induction s with
  | nil => simp [splitOnChar]
  | cons x xs ih =>
    unfold splitOnChar
    cases hs : splitOnChar c xs with
    | nil => exact absurd hs ih
    | cons h t =>
      by_cases hx : (x == c) = true <;> simp [hx]

lemma splitOnChar_not_mem {c : Char} {s : Str} (h : c ∉ s) :
    splitOnChar c s = [s] := by
  induction s with
  | nil => rfl
  | cons x xs ih =>
    have hx : x ≠ c := fun he => h (he ▸ List.mem_cons_self x xs)
    have hxs : c ∉ xs := fun hm => h (List.mem_cons_of_mem x hm)
    unfold splitOnChar
    rw [ih hxs]
    simp [beq_iff_eq, hx]

lemma splitOnChar_append_cons (c : Char) {s : Str} (t : Str) (h : c ∉ s) :
    splitOnChar c (s ++ c :: t) = s :: splitOnChar c t := by
  induction s with
  | nil =>
    show splitOnChar c (c :: t) = [] :: splitOnChar c t
    cases hs : splitOnChar c t with
    | nil => exact absurd hs (splitOnChar_ne_nil c t)
    | cons ht tt => simp [splitOnChar, hs]
  | cons x xs ih =>
    have hx : x ≠ c := fun he => h (he ▸ List.mem_cons_self x xs)
    have hxs : c ∉ xs := fun hm => h (List.mem_cons_of_mem x hm)
    show splitOnChar c (x :: (xs ++ c :: t)) = (x :: xs) :: splitOnChar c t
    simp [splitOnChar, ih hxs, hx]

lemma splitOnChar_joinNL {ls : List Str} (hne : ls ≠ [])
    (h : ∀ l ∈ ls, nl ∉ l) : splitOnChar nl (joinNL ls) = ls := by
  induction ls with
  | nil => exact absurd rfl hne
  | cons l ls2 ih =>
    cases ls2 with
    | nil =>
      show splitOnChar nl (joinNL [l]) = [l]
      exact splitOnChar_not_mem (h l (List.mem_cons_self l []))
    | cons l2 ls3 =>
      show splitOnChar nl (l ++ nl :: joinNL (l2 :: ls3)) = l :: l2 :: ls3
      rw [splitOnChar_append_cons nl _ (h l (List.mem_cons_self l _))]
      rw [ih (by simp) fun x hx => h x (List.mem_cons_of_mem l hx)]

lemma mem_glueLast {l : Str} {ls : List Str} {suf : Str}
    (h : l ∈ glueLast ls suf) :
    l ∈ ls ∨ (∃ x ∈ ls, l = x ++ suf) ∨ l = suf := by
  induction ls with
  | nil =>
    simp [glueLast] at h
    exact Or.inr (Or.inr h)
  | cons x ls2 ih =>
    cases ls2 with
    | nil =>
      simp [glueLast] at h
      exact Or.inr (Or.inl ⟨x, List.mem_cons_self x [], h⟩)
    | cons y ls3 =>
      rcases List.mem_cons.mp h with rfl | h2
      · exact Or.inl (List.mem_cons_self l _)
      · rcases ih h2 with h3 | ⟨z, hz, h3⟩ | h3
        · exact Or.inl (List.mem_cons_of_mem x h3)
        · exact Or.inr (Or.inl ⟨z, List.mem_cons_of_mem x hz, h3⟩)
        · exact Or.inr (Or.inr h3)

end GW

namespace GW

lemma not_mem_append {α : Type} {a : α} {s t : List α} (hs : a ∉ s)
    (ht : a ∉ t) : a ∉ s ++ t := by
  intro h
  rcases List.mem_append.mp h with h2 | h2
  · exact hs h2
  · exact ht h2

lemma domainValidateProjectName_no_nl {s : Str}
    (h : domainValidateProjectName s = true) : nl ∉ s := by
  intro hm
  simp only [domainValidateProjectName, Bool.and_eq_true,
    List.all_eq_true] at h
  have := h.2 nl hm
  revert this
  decide

lemma domainValidateBinaryName_no_nl {s : Str}
    (h : domainValidateBinaryName s = true) : nl ∉ s := by
  intro hm
  simp only [domainValidateBinaryName, Bool.and_eq_true,
    List.all_eq_true] at h
  have := h.1.2 nl hm
  revert this
  decide

lemma platformIsValid_no_nl {p : Str} (h : platformIsValid p = true) :
    nl ∉ p := by
  unfold platformIsValid platformMetaArchitectures at h
  split_ifs at h with h1 h2 h3 h4 h5 h6
  · subst h1; decide
  · subst h2; decide
  · subst h3; decide
  · subst h4; decide
  · subst h5; decide
  · subst h6; decide
  · simp at h

lemma architectureIsValid_no_nl {a : Str} (h : architectureIsValid a = true) :
    nl ∉ a := by
  simp only [architectureIsValid, Bool.or_eq_true, decide_eq_true_eq,
    or_assoc] at h
  rcases h with h | h | h | h | h | h | h | h | h <;> subst h <;> decide

lemma projectTypeDisplay_no_nl {pt : Str} (h : projectTypeIsValid pt = true) :
    nl ∉ projectTypeDisplay pt := by
  simp only [projectTypeIsValid, Bool.or_eq_true, decide_eq_true_eq,
    or_assoc] at h
  rcases h with h | h | h | h | h <;> subst h <;> decide

lemma goBool_no_nl (b : Bool) : nl ∉ goBool b := by
  cases b <;> decide

lemma manifestLines_no_nl (c : SafeProjectConfig)
    (h : validateInvariants c = true) : ∀ l ∈ manifestLines c, nl ∉ l := by
  simp only [validateInvariants, Bool.and_eq_true, and_assoc] at h
  obtain ⟨hpn, hbn, -, -, hpt, hplat, harch, hrest⟩ := h
  have hplat2 : ∀ p ∈ c.platforms, platformIsValid p = true := by
    simp only [validatePlatforms, Bool.and_eq_true, List.all_eq_true] at hplat
    exact hplat.2
  have harch2 : ∀ a ∈ c.architectures, architectureIsValid a = true := by
    simp only [validateArchitectures, Bool.and_eq_true,
      List.all_eq_true] at harch
    exact harch.2
  intro l hl
  unfold manifestLines at hl
  rcases List.mem_append.mp hl with hl1 | hl4
  rcases List.mem_append.mp hl1 with hl2 | hl3
  rcases List.mem_append.mp hl2 with hA | hG
  · simp only [List.mem_cons, List.not_mem_nil, or_false] at hA
    rcases hA with rfl | rfl | rfl | rfl | rfl | rfl | rfl | rfl | rfl |
      rfl | rfl
    · decide
    · decide
    · decide
    · exact not_mem_append (by decide) (domainValidateProjectName_no_nl hpn)
    · exact not_mem_append (by decide) (projectTypeDisplay_no_nl hpt)
    · exact not_mem_append (by decide) (domainValidateBinaryName_no_nl hbn)
    · decide
    · decide
    · decide
    · exact not_mem_append (by decide) (goBool_no_nl _)
    · decide
  · rcases mem_glueLast hG with hin | ⟨x, hx, rfl⟩ | rfl
    · obtain ⟨p, hp, rfl⟩ := List.mem_map.mp hin
      exact not_mem_append (by decide) (platformIsValid_no_nl (hplat2 p hp))
    · obtain ⟨p, hp, rfl⟩ := List.mem_map.mp hx
      refine not_mem_append (not_mem_append (by decide)
        (platformIsValid_no_nl (hplat2 p hp))) (by decide)
    · decide
  · rcases hls : c.architectures.map (fun a => str "      - " ++ a) with
      - | ⟨a0, rest⟩
    · rw [hls] at hl3
      simp only [blockLines, List.mem_singleton] at hl3
      subst hl3
      simp
    · rw [hls] at hl3
      have hl5 : l ∈ a0 :: rest := by simpa [blockLines] using hl3
      rw [← hls] at hl5
      obtain ⟨a, ha, rfl⟩ := List.mem_map.mp hl5
      exact not_mem_append (by decide)
        (architectureIsValid_no_nl (harch2 a ha))
  · simp only [List.mem_singleton] at hl4
    subst hl4
    simp

end GW

namespace GW

lemma not_builds_of_head_space {p : Str} :
    ((str "      - " ++ p) == str "builds:") = false := by
  rw [beq_eq_false_iff_ne]
  intro hcon
  rw [show str "      - " = ' ' :: str "     - " from rfl,
    List.cons_append,
    show str "builds:" = 'b' :: str "uilds:" from rfl] at hcon
  injection hcon with h1 _
  exact absurd h1 (by decide)

lemma builds_not_mem_glueLast (ps : List Str) :
    (str "builds:") ∉ glueLast (ps.map fun p => str "      - " ++ p)
      (str "    goarch:") := by
  intro hmem
  rcases mem_glueLast hmem with hin | ⟨x, hx, he⟩ | he
  · obtain ⟨p, -, hp⟩ := List.mem_map.mp hin
    have := not_builds_of_head_space (p := p)
    rw [hp] at this
    simp at this
  · obtain ⟨p, -, rfl⟩ := List.mem_map.mp hx
    rw [show str "      - " = ' ' :: str "     - " from rfl,
      List.cons_append, List.cons_append,
      show str "builds:" = 'b' :: str "uilds:" from rfl] at he
    injection he with h1 _
    exact absurd h1 (by decide)
  · exact absurd he (by decide)

lemma builds_not_mem_blockLines (as : List Str) :
    (str "builds:") ∉ blockLines (as.map fun a => str "      - " ++ a) := by
  intro hmem
  rcases hls : as.map (fun a => str "      - " ++ a) with - | ⟨a0, rest⟩
  · rw [hls] at hmem
    simp only [blockLines, List.mem_singleton] at hmem
    exact absurd hmem (by decide)
  · rw [hls] at hmem
    have hl5 : (str "builds:") ∈ a0 :: rest := by
      simpa [blockLines] using hmem
    rw [← hls] at hl5
    obtain ⟨a, -, hp⟩ := List.mem_map.mp hl5
    have := not_builds_of_head_space (p := a)
    rw [hp] at this
    simp at this

end GW

open GW in
/-- C5 amended: the emitted manifest splits into exactly the expected line
list — a single `builds:` line, a goos section listing the selected
platforms in the order of the configuration slice with duplicates preserved
(not in enum declaration order and not collapsed), the template-glued
`    goarch:` suffix on the last goos line, and the architectures in
configuration order with duplicates preserved. -/
theorem C5_manifest_goos_amended (c : SafeProjectConfig)
    (h : validateInvariants c = true) :
    splitOnChar nl (generateGoReleaserConfig c) = manifestLines c ∧
      (splitOnChar nl (generateGoReleaserConfig c)).count (str "builds:") =
        1 := by
  have hsplit : splitOnChar nl (generateGoReleaserConfig c) =
      manifestLines c := by
    rw [generateGoReleaserConfig_eq_joinNL]
    refine splitOnChar_joinNL ?_ (manifestLines_no_nl c h)
    unfold manifestLines
    simp
  refine ⟨hsplit, ?_⟩
  rw [hsplit]
  unfold manifestLines
  rw [List.count_append, List.count_append, List.count_append]
  have hglue : (glueLast (c.platforms.map fun p => str "      - " ++ p)
      (str "    goarch:")).count (str "builds:") = 0 :=
    List.count_eq_zero.mpr (builds_not_mem_glueLast c.platforms)
  have hblock : (blockLines (c.architectures.map
      fun a => str "      - " ++ a)).count (str "builds:") = 0 :=
    List.count_eq_zero.mpr (builds_not_mem_blockLines c.architectures)
  have hnil : ([([] : Str)] : List Str).count (str "builds:") = 0 := by
    decide
  rw [hglue, hblock, hnil]
  have epn : ((str "project_name: " ++ c.projectName) ==
      str "builds:") = false := by
    rw [beq_eq_false_iff_ne]
    intro hcon
    rw [show str "project_name: " = 'p' :: str "roject_name: " from rfl,
      List.cons_append,
      show str "builds:" = 'b' :: str "uilds:" from rfl] at hcon
    injection hcon with h1 _
    exact absurd h1 (by decide)
  have ept : ((str "project_type: " ++ projectTypeDisplay c.projectType) ==
      str "builds:") = false := by
    rw [beq_eq_false_iff_ne]
    intro hcon
    rw [show str "project_type: " = 'p' :: str "roject_type: " from rfl,
      List.cons_append,
      show str "builds:" = 'b' :: str "uilds:" from rfl] at hcon
    injection hcon with h1 _
    exact absurd h1 (by decide)
  have ebn : ((str "binary: " ++ c.binaryName) == str "builds:") = false := by
    rw [beq_eq_false_iff_ne]
    intro hcon
    rw [show str "binary: " = 'b' :: 'i' :: str "nary: " from rfl,
      List.cons_append, List.cons_append,
      show str "builds:" = 'b' :: 'u' :: str "ilds:" from rfl] at hcon
    injection hcon with h1 h2
    injection h2 with h3 _
    exact absurd h3 (by decide)
  have ecgo : ((str "      - CGO_ENABLED=" ++ goBool (getCGOEnabled c)) ==
      str "builds:") = false := by
    rw [beq_eq_false_iff_ne]
    intro hcon
    rw [show str "      - CGO_ENABLED=" = ' ' :: str "     - CGO_ENABLED="
      from rfl, List.cons_append,
      show str "builds:" = 'b' :: str "uilds:" from rfl] at hcon
    injection hcon with h1 _
    exact absurd h1 (by decide)
  simp [List.count_cons, epn, ept, ebn, ecgo]
  decide

open GW in
/-- C5 counterexample: a valid configuration whose platform slice is
`[darwin, linux, linux]` and whose architecture slice is `[amd64, amd64]`.
The emitted goos section keeps the slice order and both duplicates, so it
differs from the claimed declaration-ordered, duplicate-collapsed section. -/
theorem C5_goos_order_counterexample :
    validateInvariants dupPlatformsConfig = true ∧
      formatPlatforms dupPlatformsConfig.platforms ≠
        claimedGoosSection dupPlatformsConfig := by
  constructor
  · decide
  · decide

open GW in
/-- Witness for C5: the amended theorem applied to the duplicate-platform
configuration. -/
theorem C5_manifest_goos_amended_witness :
    splitOnChar nl (generateGoReleaserConfig dupPlatformsConfig) =
        manifestLines dupPlatformsConfig ∧
      (splitOnChar nl
          (generateGoReleaserConfig dupPlatformsConfig)).count
          (str "builds:") = 1 :=
  C5_manifest_goos_amended dupPlatformsConfig (by decide)

namespace GW

/- ===== Template security scan
   (internal/validation/template_escaping_test.go) ===== -/

/-- The dangerous-pattern list of
`TemplateEscaper.ValidateTemplateContent`. -/
def dangerousPatterns : List Str :=
  [str "<script", str "javascript:", str "vbscript:", str "onload=",
    str "onerror=", str "onclick=", str "$\x7b\x7b", str "$\x7bSCRIPT",
    str "<%", str "<%=", str "\x60", str "$(", str ";rm", str "|rm",
    str "&&rm", str "||rm"]

/-- The pattern list of `containsShellInjection`. -/
def shellPatterns : List Str :=
  [str ";", str "|", str "&", str "<", str ">", str "\x60", str "$(",
    str "$\x7b", str "rm ", str "del ", str "format ", str "shutdown",
    str "reboot", str ">/dev/", str "</dev/", str "2>&1"]

/-- `containsShellInjection`: any shell pattern in the lower-cased value. -/
def containsShellInjection (value : Str) : Bool :=
  shellPatterns.any fun p => strContains (lowerStr value) p

/-- The pattern list of `TemplateEscaper.containsYAMLInjection`. -/
def yamlPatterns : List Str :=
  [str "!!", str "!!map", str "!!seq", str "!!str", str "!!int",
    str "anchor:", str "alias:", str "<<:", str "&", str "*"]

/-- `TemplateEscaper.containsYAMLInjection`. -/
def containsYAMLInjection (content : Str) : Bool :=
  yamlPatterns.any fun p => strContains (lowerStr content) p

/-- The pattern list of
`TemplateEscaper.containsGitHubActionsInjection`. -/
def githubPatterns : List Str :=
  [str "$\x7b\x7b", str "::set-output", str "::add-path", str "::error",
    str "::warning", str "$GITHUB_", str "github.token", str "secrets."]

/-- `TemplateEscaper.containsGitHubActionsInjection`. -/
def containsGitHubActionsInjection (content : Str) : Bool :=
  githubPatterns.any fun p => strContains (lowerStr content) p

/-- `TemplateEscaper.ValidateTemplateContent`: `true` means the nil error
(the content passes the scan). The lower-cased content is matched against
the dangerous patterns; then the type-specific helper runs on the original
content. -/
def validateTemplateContent (content templateType : Str) : Bool :=
  if dangerousPatterns.any (fun p => strContains (lowerStr content) p) then
    false
  else if templateType == str "yaml" then !containsYAMLInjection content
  else if templateType == str "shell" then !containsShellInjection content
  else if templateType == str "github-actions" then
    !containsGitHubActionsInjection content
  else true

/- ===== generateGitHubActionsFromFlags
   (cmd/goreleaser-wizard/generate.go lines 345-399) ===== -/

/-- The indented trigger lines: each non-blank line of the triggers YAML is
trimmed and re-indented by two spaces. -/
def ghaTriggerLines (ts : List Str) : Str :=
  ((splitOnChar nl (generateGitHubActionsTriggersYAML ts)).map fun line =>
    if trimSpace line == ([] : Str) then ([] : Str)
    else str "  " ++ trimSpace line ++ [nl]).foldr (· ++ ·) []

/-- The fixed workflow header up to and including the `on:` line. -/
def ghaHeader : Str := str "name: Release\n\non:\n"

/-- The fixed jobs section of the workflow. -/
def ghaJobs : Str :=
  str "\njobs:\n  goreleaser:\n    runs-on: ubuntu-latest\n    steps:\n      - name: Checkout\n        uses: actions/checkout@v4\n        with:\n          fetch-depth: 0\n\n      - name: Setup Go\n        uses: actions/setup-go@v4\n        with:\n          go-version: \x27stable\x27\n\n      - name: Run GoReleaser\n        uses: goreleaser/goreleaser-action@v5\n        with:\n          version: latest\n          args: release --clean\n"

/-- The env block emitted for the GitHub container registry. -/
def ghaEnvGitHub : Str :=
  str "          GITHUB_TOKEN: $\x7b\x7b secrets.GITHUB_TOKEN \x7d\x7d\n"

/-- The env block emitted for the other registries. -/
def ghaEnvDocker : Str :=
  str "          DOCKER_USERNAME: $\x7b\x7b secrets.DOCKER_USERNAME \x7d\x7d\n          DOCKER_PASSWORD: $\x7b\x7b secrets.DOCKER_PASSWORD \x7d\x7d\n"

/-- `generateGitHubActionsFromFlags`. -/
def generateGitHubActionsFromFlags (c : SafeProjectConfig) : Str :=
  ghaHeader ++ ghaTriggerLines c.actionsOn ++ ghaJobs ++
    (if getDockerEnabled c then
      str "        env:\n" ++
        (if c.dockerRegistry == dockerRegistryGitHub then ghaEnvGitHub
        else ghaEnvDocker)
    else [])

/-- `lowerStr` distributes over concatenation. -/
lemma lowerStr_append (a b : Str) :
    lowerStr (a ++ b) = lowerStr a ++ lowerStr b :=
  List.map_append Char.toLower a b

/-- A pattern found in `t` is found in `s ++ t`. -/
lemma strContains_append_left (s : Str) {t p : Str}
    (h : strContains t p = true) : strContains (s ++ t) p = true := by
  rw [strContains_iff] at h ⊢
  obtain ⟨u, v, huv⟩ := h
  exact ⟨s ++ u, v, by rw [← huv]; simp [List.append_assoc]⟩

/-- A valid configuration with container support enabled. -/
def dockerScanConfig : SafeProjectConfig :=
  { dupPlatformsConfig with
    platforms := [platformLinux], architectures := [archAMD64],
    dockerSupport := dockerSupportBuild }

end GW

open GW in
/-- C4 amended: the emitted CI workflow of every configuration with
container support enabled — valid or not — embeds the literal
GitHub-Actions expression delimiter in its env block, so the rendered
artifact security scan rejects it; the claimed property fails on the
whole class of valid container-enabled configurations. -/
theorem C4_workflow_scan_amended (c : SafeProjectConfig)
    (_hv : validateInvariants c = true)
    (hd : getDockerEnabled c = true) :
    validateTemplateContent (generateGitHubActionsFromFlags c)
      (str "github-actions") = false := by
  have key : strContains (lowerStr (generateGitHubActionsFromFlags c))
      (str "$\x7b\x7b") = true := by
    unfold generateGitHubActionsFromFlags
    rw [if_pos hd, lowerStr_append]
    refine strContains_append_left _ ?_
    by_cases hreg : (c.dockerRegistry == dockerRegistryGitHub) = true
    · rw [if_pos hreg]
      decide
    · rw [if_neg hreg]
      decide
  have hany : (dangerousPatterns.any fun p =>
      strContains (lowerStr (generateGitHubActionsFromFlags c)) p) =
      true :=
    List.any_eq_true.mpr ⟨str "$\x7b\x7b", by decide, key⟩
  unfold validateTemplateContent
  rw [if_pos hany]

set_option maxRecDepth 40000 in
open GW in
/-- C4 counterexample: a concrete valid configuration with container
support enabled whose emitted workflow fails the security scan, refuting
the claim that the scan succeeds for every valid configuration. -/
theorem C4_docker_scan_counterexample :
    validateInvariants dockerScanConfig = true ∧
      validateTemplateContent
        (generateGitHubActionsFromFlags dockerScanConfig)
        (str "github-actions") = false := by
  constructor
  · decide
  · decide

open GW in
/-- Witness for C4: the amended theorem applied to the concrete
container-enabled configuration. -/
theorem C4_workflow_scan_amended_witness :
    validateInvariants dockerScanConfig = true ∧
      getDockerEnabled dockerScanConfig = true ∧
      validateTemplateContent
        (generateGitHubActionsFromFlags dockerScanConfig)
        (str "github-actions") = false :=
  ⟨by decide, by decide,
    C4_workflow_scan_amended dockerScanConfig (by decide) (by decide)⟩

namespace GW

/- ===== Job orchestration
   (cmd/goreleaser-wizard/job_manager.go, workflow.go) ===== -/

/-- A wizard job over an abstract state `σ`: `execute` and `rollback`
return the nil-error flag (`true` = success) and the updated state
(the `Job` interface of job_manager.go). -/
structure Jb (σ : Type) where
  id : Nat
  execute : σ → Bool × σ
  rollback : σ → Bool × σ

/-- `JobStatus`. -/
inductive JStatus where
  | pending
  | running
  | completed
  | failed
  | rolledBack
deriving DecidableEq

/-- A `JobResult`: the job and the status it reached. -/
structure JResult (σ : Type) where
  job : Jb σ
  status : JStatus

/-- `JobManager.executeSequential`: run jobs in order, recording one
result per executed job; the first failure stops the run. Returns the
result list, the final state, and the nil-error flag. -/
def executeSequential {σ : Type} :
    List (Jb σ) → σ → List (JResult σ) × σ × Bool
  | [], s => ([], s, true)
  | j :: rest, s =>
    match j.execute s with
    | (true, s') =>
      match executeSequential rest s' with
      | (rs, s'', ok) => (⟨j, JStatus.completed⟩ :: rs, s'', ok)
    | (false, s') => ([⟨j, JStatus.failed⟩], s', false)

/-- The rollback loop body of `RollbackFailedJobs`: invoke each result
job's rollback in list order, continuing past failing rollbacks, and
record the ids of the jobs whose rollback was invoked. -/
def rollbackSweep {σ : Type} : List (JResult σ) → σ → σ × List Nat
  | [], s => (s, [])
  | r :: rest, s =>
    match r.job.rollback s with
    | (_, s') =>
      match rollbackSweep rest s' with
      | (s'', ids) => (s'', r.job.id :: ids)

/-- `JobManager.RollbackFailedJobs`: sweep only the results whose status
is `Failed`, in reverse order. -/
def rollbackFailedJobs {σ : Type} (results : List (JResult σ)) (s : σ) :
    σ × List Nat :=
  rollbackSweep ((results.filter fun r =>
    r.status == JStatus.failed).reverse) s

/-- `Workflow.Execute`: run the jobs; on failure, run the rollback sweep.
Returns the nil-error flag, the final state, and the rollback
invocations. -/
def workflowExecute {σ : Type} (jobs : List (Jb σ)) (s : σ) :
    Bool × σ × List Nat :=
  match executeSequential jobs s with
  | (rs, s', ok) =>
    if ok then (true, s', [])
    else
      match rollbackFailedJobs rs s' with
      | (s'', ids) => (false, s'', ids)

/-- The sweep invokes exactly the rollbacks of the listed results, in
list order. -/
lemma rollbackSweep_ids {σ : Type} (rs : List (JResult σ)) (s : σ) :
    (rollbackSweep rs s).2 = rs.map fun r => r.job.id := by
  induction rs generalizing s with
  | nil => rfl
  | cons r rest ih =>
    unfold rollbackSweep
    rcases hx : r.job.rollback s with ⟨e, s'⟩
    rcases hy : rollbackSweep rest s' with ⟨s'', ids⟩
    have hih := ih s'
    rw [hy] at hih
    simp [hx, hy, hih]

/-- The ids of the recorded results are an initial segment of the ids of
the job list. -/
lemma executeSequential_ids_front {σ : Type} (jobs : List (Jb σ)) (s : σ) :
    ((executeSequential jobs s).1.map fun r => r.job.id) <+:
      (jobs.map fun j => j.id) := by
  induction jobs generalizing s with
  | nil => simp [executeSequential]
  | cons j rest ih =>
    rcases hx : j.execute s with ⟨ok, s'⟩
    cases ok
    · simp only [executeSequential, hx, List.map_cons, List.map_nil]
      exact List.cons_prefix_cons.mpr ⟨rfl, List.nil_prefix⟩
    · rcases hy : executeSequential rest s' with ⟨rs, s'', ok2⟩
      simp only [executeSequential, hx, hy, List.map_cons]
      refine List.cons_prefix_cons.mpr ⟨rfl, ?_⟩
      have hih := ih s'
      rw [hy] at hih
      exact hih

end GW

open GW in
/-- C1 amended: in a failed sequential run the rollback sweep invokes
exactly the rollbacks of the results whose status is `Failed`, in reverse
result order; under distinct job ids, no job whose status reached
`Completed` ever has its rollback invoked — the orchestrator does not
roll completed jobs back. -/
theorem C1_rollback_sweep_amended {σ : Type} (jobs : List (Jb σ)) (s : σ)
    (hfail : (executeSequential jobs s).2.2 = false)
    (hnodup : (jobs.map fun j => j.id).Nodup) :
    (workflowExecute jobs s).2.2 =
      (((executeSequential jobs s).1.filter fun r =>
          r.status == JStatus.failed).reverse.map fun r => r.job.id) ∧
      ∀ r ∈ (executeSequential jobs s).1, r.status = JStatus.completed →
        r.job.id ∉ (workflowExecute jobs s).2.2 := by
  rcases hes : executeSequential jobs s with ⟨rs, s', ok⟩
  rw [hes] at hfail
  have hok : ok = false := hfail
  subst hok
  have hwf : (workflowExecute jobs s).2.2 =
      ((rs.filter fun r => r.status == JStatus.failed).reverse.map
        fun r => r.job.id) := by
    unfold workflowExecute
    rw [hes]
    simp only [if_neg (by decide : ¬ (false = true))]
    unfold rollbackFailedJobs
    rcases hz : rollbackSweep ((rs.filter fun r =>
        r.status == JStatus.failed).reverse) s' with ⟨s'', ids⟩
    have hids := rollbackSweep_ids ((rs.filter fun r =>
        r.status == JStatus.failed).reverse) s'
    rw [hz] at hids
    rw [hz]
    exact hids
  constructor
  · exact hwf
  · intro r hr hcomp
    rw [hwf]
    intro hmem
    obtain ⟨q, hq, hid⟩ := List.mem_map.mp hmem
    rw [List.mem_reverse] at hq
    have hq2 := List.mem_filter.mp hq
    have hqrs : q ∈ rs := hq2.1
    have hqfail : q.status = JStatus.failed := by
      have := hq2.2
      simpa [beq_iff_eq] using this
    have hpref := executeSequential_ids_front jobs s
    rw [hes] at hpref
    have hnd : (rs.map fun r => r.job.id).Nodup :=
      hnodup.sublist hpref.sublist
    have hqr : q = r := List.inj_on_of_nodup_map hnd hqrs hr hid
    rw [hqr, hcomp] at hqfail
    exact absurd hqfail (by decide)

namespace GW

/-- A two-job plan over a rollback log: job 0 succeeds, job 1 fails; each
rollback appends its job id to the log (and itself reports failure, so a
failing rollback is also exercised). -/
def cJobs : List (Jb (List Nat)) :=
  [{ id := 0, execute := fun s => (true, s),
      rollback := fun s => (false, s ++ [0]) },
    { id := 1, execute := fun s => (false, s),
      rollback := fun s => (false, s ++ [1]) }]

end GW

open GW in
/-- C1 counterexample: in this failed run, job 0 reached `Completed`, yet
the rollback sweep invoked only job 1's rollback — the final log is `[1]`
and job 0's rollback was never called, refuting the claimed guarantee
that every completed job is rolled back. -/
theorem C1_completed_not_rolled_back_counterexample :
    (executeSequential cJobs ([] : List Nat)).2.2 = false ∧
      ((executeSequential cJobs ([] : List Nat)).1.map fun r =>
        (r.job.id, r.status)) =
        [(0, JStatus.completed), (1, JStatus.failed)] ∧
      (workflowExecute cJobs ([] : List Nat)).2.1 = [1] ∧
      (workflowExecute cJobs ([] : List Nat)).2.2 = [1] :=
  ⟨rfl, rfl, rfl, rfl⟩

open GW in
/-- Witness for C1: the amended theorem applied to the two-job plan. -/
theorem C1_rollback_sweep_amended_witness :
    (executeSequential cJobs ([] : List Nat)).2.2 = false ∧
      ((workflowExecute cJobs ([] : List Nat)).2.2 =
        (((executeSequential cJobs ([] : List Nat)).1.filter fun r =>
            r.status == JStatus.failed).reverse.map fun r => r.job.id) ∧
        ∀ r ∈ (executeSequential cJobs ([] : List Nat)).1,
          r.status = JStatus.completed →
            r.job.id ∉ (workflowExecute cJobs ([] : List Nat)).2.2) :=
  ⟨rfl, C1_rollback_sweep_amended cJobs [] rfl (by decide)⟩

namespace GW

/- ===== ConfigGenerationJob (src/unnamed/part_002) ===== -/

/-- The filesystem slice the generation plan touches: the manifest file
`.goreleaser.yaml`, its `.backup`, and the project files the validation
job checks. -/
structure FS where
  manifest : Option Str
  backup : Option Str
  hasGoMod : Bool
  hasMainGo : Bool
deriving DecidableEq

/-- `ProjectValidationJob`: succeeds when `go.mod` and a main package
exist; its rollback is a no-op. -/
def projectValidationJob : Jb FS :=
  { id := 0,
    execute := fun fs => (fs.hasGoMod && fs.hasMainGo, fs),
    rollback := fun fs => (true, fs) }

/-- `ConfigGenerationJob`: `Execute` fails when the project name is empty
or when the manifest exists and `force` is off, touching nothing; on
success it writes the generated manifest. `Rollback` restores the
`.backup` over the manifest when both exist, and otherwise deletes
whatever manifest file is present. -/
def configGenerationJob (c : SafeProjectConfig) (force : Bool) : Jb FS :=
  { id := 1,
    execute := fun fs =>
      if c.projectName = [] then (false, fs)
      else if !force && fs.manifest.isSome then (false, fs)
      else (true, { fs with manifest := some (generateGoReleaserConfig c) }),
    rollback := fun fs =>
      match fs.manifest with
      | none => (true, fs)
      | some _ =>
        match fs.backup with
        | some b => (true, { fs with manifest := some b, backup := none })
        | none => (true, { fs with manifest := none }) }

/-- `JobFactory.CreateConfigOnlyJobs`: validation then config
generation. -/
def configOnlyJobs (c : SafeProjectConfig) (force : Bool) : List (Jb FS) :=
  [projectValidationJob, configGenerationJob c force]

/-- The initial filesystem of the C2 scenario: a pre-existing manifest,
no backup, and a well-formed project. -/
def c2FS : FS :=
  { manifest := some (str "old"), backup := none,
    hasGoMod := true, hasMainGo := true }

end GW

open GW in
/-- C2: running the config-only plan with `force = false` over a
filesystem that already holds a manifest and no backup does fail at the
generation step as the spec says — but the rollback sweep then deletes
the pre-existing manifest instead of leaving the filesystem untouched:
afterwards the manifest is gone. -/
theorem C2_rollback_deletes_existing_manifest (c : SafeProjectConfig)
    (m₀ : Str) (hname : ¬ c.projectName = []) (fs₀ : FS)
    (hm : fs₀.manifest = some m₀) (hb : fs₀.backup = none)
    (hgo : fs₀.hasGoMod = true) (hmain : fs₀.hasMainGo = true) :
    (workflowExecute (configOnlyJobs c false) fs₀).1 = false ∧
      (workflowExecute (configOnlyJobs c false) fs₀).2.1.manifest = none ∧
      (workflowExecute (configOnlyJobs c false) fs₀).2.1.backup = none := by
  rcases fs₀ with ⟨om, ob, g, mg⟩
  obtain rfl : om = some m₀ := hm
  obtain rfl : ob = none := hb
  obtain rfl : g = true := hgo
  obtain rfl : mg = true := hmain
  refine ⟨?_, ?_, ?_⟩ <;>
    simp [workflowExecute, executeSequential, configOnlyJobs,
      projectValidationJob, configGenerationJob, rollbackFailedJobs,
      rollbackSweep, hname]

open GW in
/-- Witness for C2: the concrete scenario — a valid configuration, the
manifest `"old"` on disk, no backup — run through the plan: the run
fails and the pre-existing manifest has been deleted. -/
theorem C2_rollback_deletes_existing_manifest_witness :
    (workflowExecute (configOnlyJobs dupPlatformsConfig false) c2FS).1 =
        false ∧
      (workflowExecute (configOnlyJobs dupPlatformsConfig false)
          c2FS).2.1.manifest = none ∧
      (workflowExecute (configOnlyJobs dupPlatformsConfig false)
          c2FS).2.1.backup = none :=
  C2_rollback_deletes_existing_manifest dupPlatformsConfig (str "old")
    (by decide) c2FS rfl rfl rfl rfl
